import Mathlib

/-!
Verification of the KFS client write path (`src/cc/libclient/Writer.cc`):
a shallow embedding of the file-level writer (`Writer::Impl`) and the
per-chunk writer (`Writer::Impl::ChunkWriter`), with theorems settling the
specification claims about it.

Numeric constants `CHUNKSIZE`, `CHECKSUM_BLOCKSIZE`, `LEASE_INTERVAL_SECS`
and `IOBufferData::GetDefaultBufferSize()` are defined in headers outside
the embedded translation unit; they are treated as parameters (the spec's
glossary gives the typical values 64 MiB and 64 KiB, used in concrete
witnesses below).
-/

namespace KFSWriter

/-- Error codes from the `enum` at the top of `Writer::Impl`
(`-EINVAL`, `-EAGAIN`, `-EFAULT`, `-ENOENT`, `-EROFS`, `-ESPIPE`, `-EIO`). -/
def kErrorNone : Int := 0

def kErrorParameters : Int := -22

def kErrorTryAgain : Int := -11

def kErrorFault : Int := -14

def kErrorNoEntry : Int := -2

def kErrorReadOnly : Int := -30

def kErrorSeek : Int := -29

def kErrorIo : Int := -5

/-- Construction-time constants that the source reads from headers outside
this translation unit.  `now` is the net manager clock, constant within a
single event-loop callback. -/
structure Cfg where
  chunkSize : Nat := 67108864
  checksumBlockSize : Nat := 65536
  defaultBufferSize : Nat := 65536
  leaseIntervalSecs : Int := 300
  now : Int := 0
  deriving DecidableEq

/-! ### C2: the effective max write size (`Writer::Impl::Impl`, member init list)

`mMaxWriteSize(min((int)CHUNKSIZE, (int)((max(0, inMaxWriteSize) +
CHECKSUM_BLOCKSIZE - 1) / CHECKSUM_BLOCKSIZE * CHECKSUM_BLOCKSIZE)))` -/

/-- The value installed into `mMaxWriteSize` by the constructor, as a function
of the configured `inMaxWriteSize`, the chunk size `C` and the checksum block
size `B`. -/
def mMaxWriteSize (C B : Nat) (inMaxWriteSize : Int) : Nat :=
  min C ((inMaxWriteSize.toNat + B - 1) / B * B)

/-- What the spec sentence describes: the configured value rounded DOWN to a
multiple of the checksum block size, capped at the chunk size. -/
def specRoundedDownMaxWriteSize (C B : Nat) (inMaxWriteSize : Int) : Nat :=
  min C (inMaxWriteSize.toNat / B * B)

/-! ### C9: lease clock arithmetic

`ChunkWriter::Done(AllocateOp&)`:
`mLeaseEndTime = Now() + (mAllocOp.chunkLeaseDuration < 0 ?
  time_t(10) * 365 * 24 * 3600 :
  (time_t)max(int64_t(1), mAllocOp.chunkLeaseDuration - kLeaseRenewTime));`
with `enum { kLeaseRenewTime = LEASE_INTERVAL_SECS / 3 }`, and
`ChunkWriter::UpdateLeaseExpirationTime`:
`mLeaseExpireTime = min(mLeaseEndTime, Now() + LEASE_INTERVAL_SECS - kLeaseRenewTime);` -/

/-- `kLeaseRenewTime` (`L` is `LEASE_INTERVAL_SECS`; positive in any build,
so truncating C division agrees with `Int.div` on it). -/
def kLeaseRenewTime (L : Int) : Int := L / 3

/-- The ten-year sentinel `time_t(10) * 365 * 24 * 3600` used when the
allocation reply carried no lease duration. -/
def farFutureLeaseSentinel : Int := 10 * 365 * 24 * 3600

/-- `mLeaseEndTime` assigned by the allocation-completion handler. -/
def leaseEndTimeOf (L now chunkLeaseDuration : Int) : Int :=
  now + (if chunkLeaseDuration < 0 then farFutureLeaseSentinel
         else max 1 (chunkLeaseDuration - kLeaseRenewTime L))

/-- `mLeaseExpireTime` assigned by `UpdateLeaseExpirationTime`. -/
def leaseExpireTimeOf (L now leaseEndTime : Int) : Int :=
  min leaseEndTime (now + L - kLeaseRenewTime L)

/-- The spec's formula for the lease end time when the server returned a
duration: `now + max(1, alloc.chunk_lease_duration − renew_slack)` with
`renew_slack = lease_interval / 3`. -/
def specLeaseEndTime (leaseInterval now duration : Int) : Int :=
  now + max 1 (duration - leaseInterval / 3)

/-- The spec's formula for the soft expiration:
`min(lease_end_time, now + lease_interval − renew_slack)`. -/
def specLeaseExpireTime (leaseInterval now leaseEndTime : Int) : Int :=
  min leaseEndTime (now + leaseInterval - leaseInterval / 3)

/-! ### Write ops of a chunk writer

`ChunkWriter::WriteOp` holds a chunk-local offset (`mWritePrepareOp.offset`),
a byte buffer (modelled by its length, the only observable the claims use),
and the mutable begin-block cursor `mBeginBlock`.  `InitBlockRange` computes
`mBeginBlock = offset / CHECKSUM_BLOCKSIZE` and
`mEndBlock = mBeginBlock + (bytes + CHECKSUM_BLOCKSIZE - 1) / CHECKSUM_BLOCKSIZE`. -/

structure CWOp where
  off : Nat
  size : Nat
  cur : Nat
  deriving DecidableEq

/-- First checksum block of an op (`InitBlockRange`). -/
def blk (B : Nat) (o : CWOp) : Nat := o.off / B

/-- One-past-the-last checksum block of an op (`InitBlockRange`). -/
def endBlk (B : Nat) (o : CWOp) : Nat := blk B o + (o.size + B - 1) / B

/-! ### `ChunkWriter::QueueWrite` (lines 558-655): splitting bytes into ops

The function consumes `min(inBuffer.BytesConsumable(), inSize)` bytes (capped
at the end of the chunk), first coalescing into the last pending op, then
emitting a leading sub-block fragment, then max-write-size chunks. -/

/-- The byte count `theNWr` that the coalescing step of `QueueWrite`
(lines 590-601) would append to the last pending op: capacity up to the max
write size when the op starts on a block boundary, up to the end of its
block otherwise, trimmed so that an op that grows past one block always ends
block aligned.  Negative or zero means no coalescing. -/
def qwCoalesceNWr (M B : Nat) (op : CWOp) (theSize : Nat) : Int :=
  if 0 < min (theSize : Int)
        ((if op.off % B = 0 then (M : Int)
          else (B : Int) - ((op.off % B : Nat) : Int)) - op.size) ∧
      (B : Int) < op.size + min (theSize : Int)
        ((if op.off % B = 0 then (M : Int)
          else (B : Int) - ((op.off % B : Nat) : Int)) - op.size) then
    min (theSize : Int)
        ((if op.off % B = 0 then (M : Int)
          else (B : Int) - ((op.off % B : Nat) : Int)) - op.size) -
      (op.size + min (theSize : Int)
        ((if op.off % B = 0 then (M : Int)
          else (B : Int) - ((op.off % B : Nat) : Int)) - op.size)) % B
  else
    min (theSize : Int)
      ((if op.off % B = 0 then (M : Int)
        else (B : Int) - ((op.off % B : Nat) : Int)) - op.size)

/-- The try-append-to-the-last-pending-op step of `QueueWrite`.  Takes the
pending queue, the remaining byte count and chunk position, and returns them
updated.  The coalesced op keeps its begin block (`theOp.mBeginBlock =
theCurBegin` after `InitBlockRange`). -/
def qwCoalesce (M B : Nat) (pending : List CWOp) (theSize thePos : Nat) :
    List CWOp × Nat × Nat :=
  match pending.getLast? with
  | none => (pending, theSize, thePos)
  | some op =>
    if op.off + op.size = thePos ∧ 0 < qwCoalesceNWr M B op theSize then
      (pending.dropLast ++
        [{ op with size := op.size + (qwCoalesceNWr M B op theSize).toNat }],
        theSize - (qwCoalesceNWr M B op theSize).toNat,
        thePos + (qwCoalesceNWr M B op theSize).toNat)
    else (pending, theSize, thePos)

/-- Size of one op emitted by the `while` loop of `QueueWrite`:
`theOpSize = min(mMaxWriteSize, theSize)`, reduced to a checksum-block
multiple when larger than one block. -/
def qwOpSize (M B theSize : Nat) : Nat :=
  if B < min M theSize then min M theSize - min M theSize % B
  else min M theSize

/-- The `while (theSize >= theWriteThreshold)` loop of `QueueWrite`: emit ops
of `qwOpSize` bytes each.  The source loops forever when `mMaxWriteSize = 0`,
`theWriteThreshold = 0` or `CHECKSUM_BLOCKSIZE = 0` (never the case at the
call sites, where the threshold is at least 1 and the sizes are header
constants); the extra positivity guards keep the model total. -/
def qwBuildLoop (M B thr : Nat) : Nat → Nat → Nat → List CWOp →
    List CWOp × Nat
  | 0, thePos, _, acc => (acc, thePos)
  | Nat.succ fuel, thePos, theSize, acc =>
    if thr ≤ theSize ∧ 0 < thr ∧ 0 < M ∧ 0 < B then
      qwBuildLoop M B thr fuel (thePos + qwOpSize M B theSize)
        (theSize - qwOpSize M B theSize)
        (acc ++ [{ off := thePos, size := qwOpSize M B theSize,
                   cur := thePos / B }])
    else (acc, thePos)

/-- The leading sub-block fragment step of `QueueWrite` (lines 619-632):
when the position is not block aligned and either enough bytes accumulated
to reach the threshold or the block can be completed, emit the fragment as
its own op.  Takes and returns `(queue, theSize, thePos)`. -/
def qwLeadFragment (B thr1 : Nat) (r1 : List CWOp × Nat × Nat) :
    List CWOp × Nat × Nat :=
  if 0 < r1.2.2 % B ∧ (thr1 ≤ r1.2.1 ∨ B ≤ r1.2.2 % B + r1.2.1) then
    (r1.1 ++ [{ off := r1.2.2, size := min r1.2.1 (B - r1.2.2 % B),
                cur := r1.2.2 / B }],
      r1.2.1 - min r1.2.1 (B - r1.2.2 % B),
      r1.2.2 + min r1.2.1 (B - r1.2.2 % B))
  else r1

/-- `ChunkWriter::QueueWrite` restricted to its observable effect on the
pending op queue: returns the new queue and the number of bytes consumed
(`thePos - theChunkOffset`).  `C` is `CHUNKSIZE`, `M` is `mMaxWriteSize`,
`B` is `CHECKSUM_BLOCKSIZE`. -/
def chunkQueueWriteOps (C M B : Nat) (pending : List CWOp)
    (bufBytes inSize inOffset thr : Nat) : List CWOp × Nat :=
  if min bufBytes inSize = 0 then (pending, 0)
  else
    let theChunkOffset := inOffset % C
    let r1 := qwCoalesce M B pending
      (min (min bufBytes inSize) (C - theChunkOffset)) theChunkOffset
    let thr1 := if C ≤ r1.2.2 + r1.2.1 then 1 else max thr 1
    let r2 := qwLeadFragment B thr1 r1
    let r3 := qwBuildLoop M B thr1 r2.2.1 r2.2.2 r2.2.1 r2.1
    (r3.1, r3.2 - theChunkOffset)

/-! ### C5: the in-flight checksum-block bitmap

`ChunkWriter::Write(WriteOp&)` (lines 1191-1257) claims an op's blocks in
`mInFlightBlocks` one by one, advancing `mBeginBlock` and stopping at the
first block already in flight; only an op whose every block was claimed moves
from the pending queue to the in-flight queue.  `ChunkWriter::Done(WriteOp&)`
(lines 1258-1303) recomputes the block range, clears its bits, and removes
the op from the in-flight queue (returning it to the pending queue with the
begin block reset, on failure or cancellation). -/

/-- The claiming loop of `ChunkWriter::Write(WriteOp&)`: starting from the
op's current begin block `cur`, test each block in the bitmap; stop at the
first block already set, otherwise set it and advance.  Returns the updated
bitmap, the new begin block, and whether every block up to `endb` was
claimed. -/
def claimBlocks (bm : Finset Nat) (cur endb : Nat) : Finset Nat × Nat × Bool :=
  if cur < endb then
    if cur ∈ bm then (bm, cur, false)
    else claimBlocks (insert cur bm) (cur + 1) endb
  else (bm, cur, true)
termination_by endb - cur

/-- The pending queue, the in-flight queue and the in-flight block bitmap of
one chunk writer. -/
structure FlightState where
  pending : List CWOp
  inflight : List CWOp
  bm : Finset Nat
  deriving DecidableEq

/-- Effect of one attempt of `ChunkWriter::Write(WriteOp&)` on the op at the
given position of the pending queue: claim its remaining blocks; on success
move it to the back of the in-flight queue, otherwise leave it pending with
its begin block advanced past the blocks it now holds. -/
def dispatchStep (B : Nat) (s : FlightState) (p1 : List CWOp) (o : CWOp)
    (p2 : List CWOp) : FlightState :=
  if (claimBlocks s.bm o.cur (endBlk B o)).2.2 then
    ⟨p1 ++ p2,
      s.inflight ++ [{ o with cur := (claimBlocks s.bm o.cur (endBlk B o)).2.1 }],
      (claimBlocks s.bm o.cur (endBlk B o)).1⟩
  else
    ⟨p1 ++ { o with cur := (claimBlocks s.bm o.cur (endBlk B o)).2.1 } :: p2,
      s.inflight,
      (claimBlocks s.bm o.cur (endBlk B o)).1⟩

/-- The block range cleared by `ChunkWriter::Done(WriteOp&)` after
`InitBlockRange`. -/
def doneRange (B : Nat) (o : CWOp) : Finset Nat :=
  Finset.Ico (blk B o) (endBlk B o)

/-- One transition of a chunk writer's write pipeline:
`enqueue`/`extend` are `QueueWrite` pushing a fresh op (begin block as set by
`InitBlockRange`) or growing the last pending op (begin block preserved);
`dispatch` is `Write(WriteOp&)`; `doneOk` is a successful completion
(clear bits, delete from in-flight); `doneFail` is a failed or cancelled
completion (clear bits, move back to pending with the block range reset). -/
inductive FStep (B : Nat) : FlightState → FlightState → Prop where
  | enqueue (s : FlightState) (o : CWOp) (ho : o.cur = blk B o) :
      FStep B s { s with pending := s.pending ++ [o] }
  | extend (s : FlightState) (p : List CWOp) (o : CWOp) (n : Nat)
      (hp : s.pending = p ++ [o]) :
      FStep B s { s with pending := p ++ [{ o with size := o.size + n }] }
  | dispatch (s : FlightState) (p1 : List CWOp) (o : CWOp) (p2 : List CWOp)
      (hp : s.pending = p1 ++ o :: p2) :
      FStep B s (dispatchStep B s p1 o p2)
  | doneOk (s : FlightState) (q1 : List CWOp) (o : CWOp) (q2 : List CWOp)
      (hq : s.inflight = q1 ++ o :: q2) :
      FStep B s { pending := s.pending, inflight := q1 ++ q2,
                  bm := s.bm \ doneRange B o }
  | doneFail (s : FlightState) (q1 : List CWOp) (o : CWOp) (q2 : List CWOp)
      (hq : s.inflight = q1 ++ o :: q2) :
      FStep B s { pending := s.pending ++ [{ o with cur := blk B o }],
                  inflight := q1 ++ q2, bm := s.bm \ doneRange B o }

/-- States reachable from a fresh chunk writer (empty queues, empty bitmap). -/
inductive FReachable (B : Nat) : FlightState → Prop where
  | init : FReachable B ⟨[], [], ∅⟩
  | step {s t : FlightState} :
      FReachable B s → FStep B s t → FReachable B t

/-- The half-open block interval a pending op currently holds in the bitmap:
from its first block up to its advanced begin block. -/
def claimedIv (B : Nat) (o : CWOp) : Nat × Nat := (blk B o, o.cur)

/-- The full block interval of an op. -/
def fullIv (B : Nat) (o : CWOp) : Nat × Nat := (blk B o, endBlk B o)

/-- Membership of a block in a half-open interval. -/
def memIv (iv : Nat × Nat) (b : Nat) : Prop := iv.1 ≤ b ∧ b < iv.2

instance (iv : Nat × Nat) (b : Nat) : Decidable (memIv iv b) :=
  inferInstanceAs (Decidable (_ ∧ _))

/-- Two block intervals share no block. -/
def ivDisj (i j : Nat × Nat) : Prop := ∀ b, ¬ (memIv i b ∧ memIv j b)

/-- The intervals currently holding bitmap bits: the claimed prefix of every
pending op and the full range of every in-flight op. -/
def ivList (B : Nat) (s : FlightState) : List (Nat × Nat) :=
  s.pending.map (claimedIv B) ++ s.inflight.map (fullIv B)

/-- A block lies in some interval of the list. -/
def inIvs (l : List (Nat × Nat)) (b : Nat) : Prop := ∃ iv ∈ l, memIv iv b

/-- The bitmap invariant of a chunk writer: pending cursors are within range,
the holding intervals are pairwise disjoint, and the bitmap is exactly their
union. -/
def FlightInv (B : Nat) (s : FlightState) : Prop :=
  (∀ o ∈ s.pending, blk B o ≤ o.cur ∧ o.cur ≤ endBlk B o) ∧
  List.Pairwise ivDisj (ivList B s) ∧
  (∀ b, b ∈ s.bm ↔ inIvs (ivList B s) b)

/-- For every block, no two in-flight ops both cover it. -/
def BlockExclusive (B : Nat) (s : FlightState) : Prop :=
  ∀ b : Nat, List.Pairwise
    (fun o1 o2 => ¬ (memIv (fullIv B o1) b ∧ memIv (fullIv B o2) b))
    s.inflight

/-- Every block of every in-flight op is set in the bitmap. -/
def BitmapCovers (B : Nat) (s : FlightState) : Prop :=
  ∀ o ∈ s.inflight, ∀ b, memIv (fullIv B o) b → b ∈ s.bm

/-! ### The file-level writer (`Writer::Impl`)

State record mirroring the data members of `Writer::Impl` that the embedded
operations touch.  `IOBuffer`s are modelled by their byte counts (the only
observable the claims use); chunk writers carry a model-level `id` standing
for their address, with insertion order front-first (most recently used
first, like `mWriters`).  `assertOk` records that every `QCASSERT` /
`QCRTASSERT` evaluated so far held. -/

/-- Which op `mLastOpPtr` points to. -/
inductive OpTag
  | alloc
  | widAlloc
  | close
  | leaseUpdate
  | write
  deriving DecidableEq

/-- Observable actions of one event-loop callback: completion callbacks to
the host and ops enqueued on (or cancelled from) the metadata-server and
chunk-server transports. -/
inductive Event
  | done (err off size : Int)
  | metaAlloc (cw : Nat)
  | metaCancelAlloc (cw : Nat)
  | metaTruncate (off : Int)
  | csStop (cw : Nat)
  | csWrite (cw : Nat) (off size : Nat)
  | csLeaseUpdate (cw : Nat)
  | csClose (cw : Nat)
  deriving DecidableEq

/-- `Writer::Impl::ChunkWriter` data members used by the embedded
operations.  `chunkId` starts negative: the `AllocateOp` constructor is
outside this translation unit, and the spec's state table has
`alloc.chunk_id < 0` in `IDLE` (`Modelled from the spec` for that initial
value only). -/
structure ChunkWriterS where
  id : Nat
  fileOffset : Int := -1
  openChunkBlockFileOffset : Int := -1
  chunkId : Int := -1
  chunkVersion : Int := -1
  invalidateAll : Bool := false
  writeIdsCount : Nat := 0
  pendingOps : List CWOp := []
  inFlightOps : List CWOp := []
  inFlightBlocks : Finset Nat := ∅
  pendingCount : Int := 0
  maxChunkPos : Nat := 0
  errorCode : Int := 0
  retryCount : Int := 0
  closing : Bool := false
  sleeping : Bool := false
  keepLease : Bool := false
  leaseUpdatePending : Bool := false
  lastOp : Option OpTag := none
  closeChunkId : Int := 0
  closeChunkVersion : Int := 0
  leaseEndTime : Int := 0
  leaseExpireTime : Int := 0
  writePrepReplySupported : Bool := false
  deriving DecidableEq

/-- The striper hook, out of scope per the spec; only the file size and
pending count it reports to the file writer are modelled. -/
structure StriperS where
  fileSize : Int := -1
  pendingSize : Int := 0
  deriving DecidableEq

structure WriterS where
  fileId : Int := -1
  pathName : String := ""
  closing : Bool := false
  sleeping : Bool := false
  errorCode : Int := 0
  writeThreshold : Int := 0
  partialBuffersCount : Int := 0
  pendingCount : Int := 0
  maxPartialBuffersCount : Int := -1
  maxWriteSize : Nat := 0
  maxPendingThreshold : Int := 0
  replicaCount : Int := -1
  retryCount : Int := 0
  fileSize : Int := 0
  offset : Int := 0
  openChunkBlockSize : Int := 67108864
  chunkServerInitialSeqNum : Int := 0
  bufferBytes : Nat := 0
  striper : Option StriperS := none
  striperProcessCount : Int := 0
  truncateFid : Int := -1
  truncateFileOffset : Int := 0
  completionDepth : Int := 0
  writers : List ChunkWriterS := []
  nextCwId : Nat := 0
  assertOk : Bool := true
  deriving DecidableEq

/-- `Writer::Impl::IsOpen`. -/
def wIsOpen (s : WriterS) : Prop := 0 < s.fileId

instance (s : WriterS) : Decidable (wIsOpen s) :=
  inferInstanceAs (Decidable (_ < _))

/-- `GetPendingSizeSelf`: bytes in staging plus striper-held bytes. -/
def pendingSizeSelf (s : WriterS) : Int :=
  (s.bufferBytes : Int) +
    (match s.striper with
     | some st => max 0 st.pendingSize
     | none => 0)

/-- `ChunkWriter::GetFileOffset`. -/
def cwGetFileOffset (w : ChunkWriterS) : Int :=
  if w.errorCode = 0 then w.fileOffset else -1

/-- `ChunkWriter::IsIdle`. -/
def cwIsIdle (w : ChunkWriterS) : Prop :=
  w.pendingOps = [] ∧ w.inFlightOps = [] ∧ w.closing = false

instance (w : ChunkWriterS) : Decidable (cwIsIdle w) :=
  inferInstanceAs (Decidable (_ ∧ _ ∧ _))

/-- `ChunkWriter::IsOpen`. -/
def cwIsOpen (w : ChunkWriterS) : Prop :=
  w.errorCode = 0 ∧ 0 ≤ w.fileOffset ∧ w.closing = false

instance (w : ChunkWriterS) : Decidable (cwIsOpen w) :=
  inferInstanceAs (Decidable (_ ∧ _ ∧ _))

/-- `ChunkWriter::GetOpenChunkBlockFileOffset`. -/
def cwGetOpenChunkBlockFileOffset (w : ChunkWriterS) : Int :=
  if 0 ≤ w.fileOffset then w.openChunkBlockFileOffset else -1

/-- `ChunkWriter::CanWrite`. -/
def cwCanWrite (w : ChunkWriterS) : Prop :=
  w.pendingOps ≠ [] ∨ w.invalidateAll = true

instance (w : ChunkWriterS) : Decidable (cwCanWrite w) :=
  inferInstanceAs (Decidable (_ ∨ _))

/-- Look a chunk writer up by id (pointer identity in the source). -/
def findCW (s : WriterS) (i : Nat) : Option ChunkWriterS :=
  s.writers.find? (fun w => w.id == i)

/-- Apply an update to the chunk writer with the given id. -/
def updCW (s : WriterS) (i : Nat) (f : ChunkWriterS → ChunkWriterS) : WriterS :=
  { s with writers := s.writers.map (fun w => if w.id = i then f w else w) }

/-- `Writers::Remove` (used on chunk-writer destruction). -/
def removeCW (s : WriterS) (i : Nat) : WriterS :=
  { s with writers := s.writers.filter (fun w => ! (w.id == i)) }

/-- `Writers::PushFront` on an existing writer: move it to the MRU front. -/
def moveToFrontCW (s : WriterS) (i : Nat) : WriterS :=
  match findCW s i with
  | some w =>
    { s with writers := w :: s.writers.filter (fun w2 => ! (w2.id == i)) }
  | none => s

/-- Record a `QCASSERT`/`QCRTASSERT` evaluation. -/
def wAssert (s : WriterS) (p : Prop) [Decidable p] : WriterS :=
  if p then s else { s with assertOk := false }

/-! ### C1: `Writer::Impl::SetFileSize` (lines 1850-1875) -/

/-- `theSize` computed by `SetFileSize`: the striper's file size when a
striper is installed, otherwise the cursor plus the staged bytes. -/
def setFileSizeComputedSize (s : WriterS) : Int :=
  match s.striper with
  | some st => st.fileSize
  | none => s.offset + s.bufferBytes

/-- `Writer::Impl::SetFileSize`: enqueue the truncate op committing the
final file size, unless (no striper and a nonzero replica count), or an
error is latched, or a truncate is already in flight, or the computed size
does not exceed the committed one.  Returns the new state, the emitted
events, and whether the op was enqueued. -/
def setFileSizeF (s : WriterS) : WriterS × List Event × Bool :=
  if (s.striper.isNone ∧ s.replicaCount ≠ 0) ∨ s.errorCode ≠ 0 ∨
      0 ≤ s.truncateFid then
    (s, [], false)
  else if setFileSizeComputedSize s < 0 ∨
      setFileSizeComputedSize s ≤ s.truncateFileOffset then
    (s, [], false)
  else
    ({ s with truncateFid := s.fileId,
              truncateFileOffset := setFileSizeComputedSize s },
      [Event.metaTruncate (setFileSizeComputedSize s)], true)

/-! ### C3: the staging step of `Writer::Impl::Write` (lines 259-276) -/

/-- Whether the incoming bytes were copied into the tail of the staging
buffer (`ReplaceKeepBuffersFull`) or moved by reference (`Move`). -/
inductive BufAction
  | copied
  | moved
  deriving DecidableEq

/-- The partial-buffer counter after a move: reset when the staging buffer
was empty, then incremented. -/
def stagePbc (s : WriterS) : Int :=
  (if s.bufferBytes = 0 then 0 else s.partialBuffersCount) + 1

/-- The staging step of `Write`: copy into the tail when
`mMaxPartialBuffersCount == 0` or the length is below twice the default
buffer size; otherwise move by reference, resetting the partial-buffer
counter if the buffer was empty, incrementing it, and compacting
(`MakeBuffersFull`, third component `true`) when it reaches
`mMaxPartialBuffersCount`. -/
def stageBytes (defaultBufSize : Nat) (s : WriterS) (len : Int) :
    WriterS × BufAction × Bool :=
  if s.maxPartialBuffersCount = 0 ∨ len < 2 * (defaultBufSize : Int) then
    ({ s with bufferBytes := s.bufferBytes + len.toNat },
      BufAction.copied, false)
  else if 0 ≤ s.maxPartialBuffersCount ∧
      s.maxPartialBuffersCount ≤ stagePbc s then
    ({ s with bufferBytes := s.bufferBytes + len.toNat,
              partialBuffersCount := 0 },
      BufAction.moved, true)
  else
    ({ s with bufferBytes := s.bufferBytes + len.toNat,
              partialBuffersCount := stagePbc s },
      BufAction.moved, false)

/-! ### C6: the argument and state checks of `Writer::Impl::Open`
(lines 146-165) -/

/-- The early-return section of `Open`: `some e` means `Open` returns `e`
without touching any state; `none` means it proceeds to install the new
identity.  The branch order is the source's. -/
def openEarlyReturn (s : WriterS) (inFileId : Int) (path : String)
    (inFileSize : Int) (inReplicaCount : Int) : Option Int :=
  if inFileId ≤ 0 ∨ path = "" then some kErrorParameters
  else if inReplicaCount = 0 ∧ inFileSize ≠ 0 then some kErrorSeek
  else if 0 < s.fileId then
    if inFileId = s.fileId ∧ path = s.pathName then some s.errorCode
    else some kErrorParameters
  else if 0 < s.fileId ∧ s.errorCode ≠ 0 then
    some (if s.errorCode < 0 then s.errorCode else -s.errorCode)
  else if s.closing ∨ s.sleeping then some kErrorTryAgain
  else none

/-! ### Chunk-writer operations (non-recursive helpers)

These translate the `ChunkWriter` member functions that do not re-enter the
file writer.  Ops enqueued on a transport are events; their completions
arrive in later event-loop callbacks, never inside the call being
modelled. -/

/-- `ChunkWriter::CancelLeaseUpdate` (lines 937-948). -/
def cancelLeaseUpdateF (w : ChunkWriterS) : ChunkWriterS × Bool :=
  if w.leaseUpdatePending = false then (w, false)
  else ({ w with sleeping := false, leaseUpdatePending := false }, true)

/-- `ChunkWriter::SheduleLeaseUpdate` (lines 924-936): `false` means the
caller must return (nothing to do yet, possibly after arming the lease
timer). -/
def schedLeaseUpdateF (cfg : Cfg) (w : ChunkWriterS) : ChunkWriterS × Bool :=
  if w.keepLease = false then (w, false)
  else if cfg.now < w.leaseExpireTime then
    let w1 := { w with leaseUpdatePending := true }
    (if 0 < w.leaseExpireTime - cfg.now ∧ w1.sleeping = false
      then { w1 with sleeping := true } else w1, false)
  else (w, true)

/-- `ChunkWriter::Reset()` (lines 1467-1483): cancel a pending allocation,
clear ids and the last-op pointer, and stop the chunk-server connection —
which cancels the in-flight ops, each cancelled `WriteOp` completion
returning its op to the pending queue with its block range reset and its
bitmap bits cleared (`Done(WriteOp&)`, cancelled path). -/
def cwResetF (cfg : Cfg) (s : WriterS) (i : Nat) : WriterS × List Event :=
  match findCW s i with
  | none => (s, [])
  | some w =>
    let ev := (if w.lastOp = some OpTag.alloc then [Event.metaCancelAlloc i]
               else []) ++ [Event.csStop i]
    (updCW s i (fun w => { w with
        pendingOps := w.pendingOps ++ w.inFlightOps.map
          (fun o => { o with cur := blk cfg.checksumBlockSize o }),
        inFlightOps := [],
        inFlightBlocks := w.inFlightOps.foldl
          (fun bm o => bm \ doneRange cfg.checksumBlockSize o)
          w.inFlightBlocks,
        writeIdsCount := 0,
        chunkId := 0,
        lastOp := none,
        sleeping := false,
        leaseUpdatePending := false }),
      ev)

/-- Chunk-writer destruction (`~ChunkWriter`, lines 539-546): `Shutdown`
(reset, drop the pending queue, clear flags) and removal from the MRU
list. -/
def deleteCWF (cfg : Cfg) (s : WriterS) (i : Nat) : WriterS × List Event :=
  let r := cwResetF cfg s i
  (removeCW (updCW r.1 i (fun w => { w with
      pendingOps := [],
      closing := false,
      errorCode := 0,
      pendingCount := 0 })) i,
    r.2)

/-- `ChunkWriter::AllocateChunk` (lines 844-882): reset the allocation op's
result fields and enqueue it on the metadata server. -/
def allocateChunkF (s : WriterS) (i : Nat) : WriterS × List Event :=
  match findCW s i with
  | none => (s, [])
  | some w =>
    let s1 := wAssert s (0 < s.fileId ∧ 0 ≤ w.fileOffset ∧
      (w.pendingOps ≠ [] ∨ (0 < w.closeChunkId ∧ w.closeChunkVersion < 0) ∨
        w.keepLease = true))
    (updCW s1 i (fun w => { w with
        chunkId := -1,
        chunkVersion := -1,
        lastOp := some OpTag.alloc }),
      [Event.metaAlloc i])

/-- `ChunkWriter::CloseChunk` (lines 1345-1378): move the chunk identity
into the close op, drop the write ids, and enqueue the close on the chunk
server.  (The extended object-store commit timeout only configures the
transport.) -/
def closeChunkF (s : WriterS) (i : Nat) : WriterS × List Event :=
  match findCW s i with
  | none => (s, [])
  | some w =>
    let s1 := wAssert s (0 < w.chunkId)
    (updCW s1 i (fun w => { w with
        closeChunkId := w.chunkId,
        closeChunkVersion := w.chunkVersion,
        writeIdsCount := 0,
        chunkId := -1,
        lastOp := some OpTag.close }),
      [Event.csClose i])

/-- `ChunkWriter::UpdateLease` (lines 1304-1324): a zero-byte write-prepare
used as lease keep-alive. -/
def updateLeaseF (s : WriterS) (i : Nat) : WriterS × List Event :=
  match findCW s i with
  | none => (s, [])
  | some w =>
    let s1 := wAssert s (w.writePrepReplySupported = true ∧ 0 < w.chunkId ∧
      w.writeIdsCount ≠ 0)
    (updCW s1 i (fun w => { w with lastOp := some OpTag.leaseUpdate }),
      [Event.csLeaseUpdate i])

/-- The dispatch loop of `ChunkWriter::Write()` (lines 1171-1190) over the
ops of the pending queue in order: claim each op's blocks
(`Write(WriteOp&)`); a fully claimed op moves to the in-flight queue and is
enqueued on the chunk server, a blocked op stays pending with its begin
block advanced. -/
def cwWriteOps (B : Nat) (i : Nat) : List CWOp → List CWOp → List CWOp →
    Finset Nat → List Event → List CWOp × List CWOp × Finset Nat × List Event
  | [], keep, infl, bm, ev => (keep, infl, bm, ev)
  | o :: rest, keep, infl, bm, ev =>
    if (claimBlocks bm o.cur (endBlk B o)).2.2 then
      cwWriteOps B i rest keep
        (infl ++ [{ o with cur := (claimBlocks bm o.cur (endBlk B o)).2.1 }])
        (claimBlocks bm o.cur (endBlk B o)).1
        (ev ++ [Event.csWrite i o.off o.size])
    else
      cwWriteOps B i rest
        (keep ++ [{ o with cur := (claimBlocks bm o.cur (endBlk B o)).2.1 }])
        infl (claimBlocks bm o.cur (endBlk B o)).1 ev

/-- `ChunkWriter::Write()`: run the dispatch loop while not sleeping, not
in error and holding a chunk (these cannot change inside the loop here,
since completions are asynchronous). -/
def cwWriteF (cfg : Cfg) (s : WriterS) (i : Nat) : WriterS × List Event :=
  match findCW s i with
  | none => (s, [])
  | some w =>
    if w.sleeping = false ∧ w.errorCode = 0 ∧ 0 < w.chunkId then
      let r := cwWriteOps cfg.checksumBlockSize i w.pendingOps []
        w.inFlightOps w.inFlightBlocks []
      (updCW s i (fun w => { w with
          pendingOps := r.1,
          inFlightOps := r.2.1,
          inFlightBlocks := r.2.2.1,
          lastOp := if r.2.2.2 = [] then w.lastOp
                    else some OpTag.write }),
        r.2.2.2)
    else (s, [])

/-- The tail of `ChunkWriter::StartWrite` (lines 734-743): write or renew
the lease when allocation and write ids are held, otherwise allocate when
no op is in flight. -/
def cwDispatchTail (cfg : Cfg) (s : WriterS) (i : Nat) : WriterS × List Event :=
  match findCW s i with
  | none => (s, [])
  | some w =>
    if 0 < w.chunkId ∧ w.writeIdsCount ≠ 0 then
      if cwCanWrite w then cwWriteF cfg s i else updateLeaseF s i
    else if w.lastOp = none then
      let r := cwResetF cfg s i
      let a := allocateChunkF r.1 i
      (a.1, r.2 ++ a.2)
    else (s, [])

/-- `ChunkWriter::QueueWrite` (lines 558-655) on the writer with the given
id: fix the chunk file offset on first use, split the bytes into pending
ops, and account the queued byte count. -/
def cwQueueWriteF (cfg : Cfg) (s : WriterS) (i : Nat)
    (bufBytes inSize : Nat) (inOffset : Int) (thr : Int) : WriterS × Nat :=
  match findCW s i with
  | none => (s, 0)
  | some w =>
    if min bufBytes inSize = 0 then (s, 0)
    else
      let s1 := wAssert s (0 ≤ inOffset ∧ w.closing = false)
      let theFileOffset := inOffset - inOffset % (cfg.chunkSize : Int)
      let s2 :=
        if w.fileOffset < 0 then
          updCW s1 i (fun w => { w with
            fileOffset := theFileOffset,
            openChunkBlockFileOffset :=
              theFileOffset - theFileOffset % s.openChunkBlockSize })
        else wAssert s1 (w.fileOffset = theFileOffset)
      let r := chunkQueueWriteOps cfg.chunkSize s.maxWriteSize
        cfg.checksumBlockSize w.pendingOps bufBytes inSize
        inOffset.toNat thr.toNat
      (updCW s2 i (fun w => { w with
          pendingOps := r.1,
          pendingCount := w.pendingCount + (r.2 : Int),
          maxChunkPos := max (inOffset.toNat % cfg.chunkSize + r.2)
            w.maxChunkPos }),
        r.2)

/-- `Writer::Impl::CanClose` (lines 2030-2058). -/
def canCloseF (s : WriterS) (w : ChunkWriterS) : Bool :=
  decide (cwIsIdle w) &&
  (!(decide (cwIsOpen w)) || s.closing ||
    (match s.writers.head? with
     | none => true
     | some front =>
       !(decide (0 < s.replicaCount ∧ front.id = w.id)) &&
       decide (0 ≤ cwGetOpenChunkBlockFileOffset front) &&
       decide (cwGetFileOffset w < cwGetOpenChunkBlockFileOffset front ∨
         cwGetOpenChunkBlockFileOffset front + s.openChunkBlockSize ≤
           cwGetFileOffset w)))

/-- `Writer::Impl::QueueWrite(IOBuffer&, ...)` (lines 1977-2007): find or
create the chunk writer owning the chunk at the cursor, promote it to the
MRU front, cancel its pending close, and hand it the staged bytes.
Returns the state, the queued byte count and the id of the front writer. -/
def fileQueueWriteF (cfg : Cfg) (s : WriterS) (thr : Int) :
    WriterS × Nat × Nat :=
  if s.bufferBytes = 0 then (s, 0, 0)
  else
    let s0 := wAssert s (0 ≤ s.offset)
    let theFileOffset := s.offset - s.offset % (cfg.chunkSize : Int)
    match s0.writers.find? (fun w => cwGetFileOffset w == theFileOffset) with
    | some w =>
      let s1 := updCW (moveToFrontCW s0 w.id) w.id
        (fun w => { w with closing := false })
      let r := cwQueueWriteF cfg s1 w.id s1.bufferBytes s1.bufferBytes
        s1.offset thr
      let s2 := wAssert r.1
        (r.1.writers.head?.map ChunkWriterS.id = some w.id)
      ({ s2 with bufferBytes := s2.bufferBytes - r.2 }, r.2, w.id)
    | none =>
      let newId := s0.nextCwId
      let s1 := { s0 with
        chunkServerInitialSeqNum := s0.chunkServerInitialSeqNum + 10000,
        nextCwId := newId + 1,
        writers := { id := newId } :: s0.writers }
      let r := cwQueueWriteF cfg s1 newId s1.bufferBytes s1.bufferBytes
        s1.offset thr
      ({ r.1 with bufferBytes := r.1.bufferBytes - r.2 }, r.2, newId)

/-! ### The mutually recursive core of one event-loop callback

`ReportCompletion` runs the idle reaper, which may close chunk writers,
whose `StartWrite` may report completion again; the recursion is bounded in
the source by the completion-depth guard and the shrinking writer list, and
here by explicit fuel (every theorem either quantifies over the fuel or
supplies enough of it).  On exhausted fuel each function returns its inputs
unchanged. -/

mutual

/-- `Writer::Impl::ReportCompletion` (lines 2092-2129): account the
acknowledged bytes, latch the reporting writer's error, emit the
`Completion::Done` callback, run the idle reaper when not re-entered, and
at the end of a close with no truncate in flight emit the terminal
`Done(err, 0, 0)` and mark the file not open.  Returns
`(state, events, flag)` with the source's boolean result. -/
def rcF (cfg : Cfg) : Nat → WriterS → Option Nat → Int → Int →
    WriterS × List Event × Bool
  | 0, s, _, _, _ => (s, [], true)
  | fuel+1, s, fromW, off, size =>
    let s1 := wAssert { s with completionDepth := s.completionDepth + 1 }
      (0 ≤ s.pendingCount ∧ size ≤ s.pendingCount)
    let s2 := { s1 with pendingCount := s1.pendingCount - size }
    let s3 :=
      match fromW with
      | some i =>
        if s2.errorCode = 0 then
          { s2 with
            errorCode :=
              match findCW s2 i with
              | some w => w.errorCode
              | none => 0 }
        else s2
      | none => s2
    let ev0 : List Event := [Event.done s3.errorCode off size]
    let r :=
      if s3.completionDepth ≤ 1 ∧ s3.striperProcessCount ≤ 0 then
        let t := ttciF cfg fuel s3 fromW
        if t.1.closing = true ∧ t.1.writers = [] ∧ t.1.sleeping = false then
          let u := setFileSizeF t.1
          if u.1.truncateFid < 0 ∧ u.1.sleeping = false then
            ({ u.1 with
                closing := false,
                fileId := -1,
                striper := none },
              t.2.1 ++ u.2.1 ++ [Event.done u.1.errorCode 0 0], false)
          else (u.1, t.2.1 ++ u.2.1, t.2.2)
        else (t.1, t.2.1, t.2.2)
      else (s3, [], true)
    ({ r.1 with completionDepth := r.1.completionDepth - 1 },
      ev0 ++ r.2.1, r.2.2)

/-- `Writer::Impl::TryToCloseIdle` (lines 2059-2090): walk the MRU list
from the back, closing and deleting every closable idle writer, stopping at
the first idle writer that cannot be closed; the result is `false` when the
writer passed in was deleted (or when called with null on an empty list
negated). -/
def ttciF (cfg : Cfg) : Nat → WriterS → Option Nat →
    WriterS × List Event × Bool
  | 0, s, _ => (s, [], true)
  | fuel+1, s, inW =>
    match s.writers with
    | [] => (s, [], inW.isNone)
    | _ => ttciGo cfg fuel s inW ((s.writers.map (fun w => w.id)).reverse)
        true

/-- The loop of `TryToCloseIdle` over a back-to-front snapshot of the MRU
list (the source captures the predecessor before possibly deleting the
current writer; only this loop deletes writers, nested completions being
blocked by the depth guard). -/
def ttciGo (cfg : Cfg) : Nat → WriterS → Option Nat → List Nat → Bool →
    WriterS × List Event × Bool
  | 0, s, _, _, ret => (s, [], ret)
  | _+1, s, _, [], ret => (s, [], ret)
  | fuel+1, s, inW, i :: rest, ret =>
    match findCW s i with
    | none => ttciGo cfg fuel s inW rest ret
    | some w =>
      let next : List Nat :=
        if s.writers.head?.map ChunkWriterS.id = some i then [] else rest
      if canCloseF s w then
        let theOpenFlag := cwIsOpen w
        let c := if theOpenFlag then cwCloseF cfg fuel s i else (s, [])
        match findCW c.1 i with
        | none =>
          let g := ttciGo cfg fuel c.1 inW next ret
          (g.1, c.2 ++ g.2.1, g.2.2)
        | some w1 =>
          if ¬ theOpenFlag ∨ (¬ cwIsOpen w1 ∧ canCloseF c.1 w1 = true) then
            let d := deleteCWF cfg c.1 i
            let ret1 := if inW = some i then false else ret
            let g := ttciGo cfg fuel d.1 inW next ret1
            (g.1, c.2 ++ d.2 ++ g.2.1, g.2.2)
          else
            let g := ttciGo cfg fuel c.1 inW next ret
            (g.1, c.2 ++ g.2.1, g.2.2)
      else if cwIsIdle w ∧ cwIsOpen w then (s, [], ret)
      else ttciGo cfg fuel s inW next ret

/-- `ChunkWriter::Close` (lines 745-751). -/
def cwCloseF (cfg : Cfg) : Nat → WriterS → Nat → WriterS × List Event
  | 0, s, _ => (s, [])
  | fuel+1, s, i =>
    match findCW s i with
    | none => (s, [])
    | some w =>
      if w.closing = false ∧ cwIsOpen w then
        cwStartWriteF cfg fuel
          (updCW s i (fun w => { w with closing := true })) i
      else (s, [])

/-- `ChunkWriter::StartWrite` (lines 656-744): the chunk-writer state
machine step, evaluated in the source's order. -/
def cwStartWriteF (cfg : Cfg) : Nat → WriterS → Nat → WriterS × List Event
  | 0, s, _ => (s, [])
  | fuel+1, s, i =>
    match findCW s i with
    | none => (s, [])
    | some w0 =>
      if w0.sleeping = true ∧ (cancelLeaseUpdateF w0).2 = false then (s, [])
      else
        let w1 := if w0.sleeping = true then (cancelLeaseUpdateF w0).1 else w0
        let w2 := { w1 with leaseUpdatePending := false }
        let s2 := updCW s i (fun _ => w2)
        if w2.errorCode ≠ 0 ∧ w2.invalidateAll = false then
          let r := if w2.lastOp.isSome then cwResetF cfg s2 i else (s2, [])
          (updCW r.1 i (fun w => { w with closing := false }), r.2)
        else if w2.closing = true ∧ ¬ cwCanWrite w2 then
          if w2.inFlightOps ≠ [] then (s2, [])
          else if w2.lastOp = some OpTag.close then (s2, [])
          else if 0 < w2.chunkId then
            if w2.lastOp ≠ some OpTag.widAlloc ∨ w2.closeChunkId < 0 ∨
                0 ≤ w2.closeChunkVersion then
              closeChunkF s2 i
            else (s2, [])
          else if w2.keepLease = true then
            if w2.lastOp ≠ some OpTag.alloc ∧
                w2.lastOp ≠ some OpTag.widAlloc then
              let r := cwResetF cfg s2 i
              let a := allocateChunkF r.1 i
              (a.1, r.2 ++ a.2)
            else (s2, [])
          else
            let ev := [Event.csStop i] ++
              (if w2.lastOp = some OpTag.alloc then [Event.metaCancelAlloc i]
               else [])
            let s3 := updCW s2 i (fun w =>
              let w3 : ChunkWriterS := { w with
                closing := false,
                fileOffset := -1,
                chunkId := -1 }
              if w3.errorCode = 0 then { w3 with retryCount := 0 } else w3)
            let r := rcF cfg fuel s3 (some i) 0 0
            (r.1, ev ++ r.2.1)
        else
          let sched1 := if ¬ cwCanWrite w2 then schedLeaseUpdateF cfg w2
            else (w2, true)
          let s5 := updCW s2 i (fun _ => sched1.1)
          if ¬ cwCanWrite w2 ∧ sched1.2 = false then (s5, [])
          else
            let w5 := sched1.1
            if 0 < w5.chunkId ∧
                min (w5.leaseEndTime - 1)
                  (w5.leaseExpireTime +
                    kLeaseRenewTime cfg.leaseIntervalSecs / 2) ≤ cfg.now then
              let r := cwResetF cfg s5 i
              match findCW r.1 i with
              | none => (r.1, r.2)
              | some w6 =>
                let sched2 := if ¬ cwCanWrite w6 then schedLeaseUpdateF cfg w6
                  else (w6, true)
                let s6 := updCW r.1 i (fun _ => sched2.1)
                if ¬ cwCanWrite w6 ∧ sched2.2 = false then (s6, r.2)
                else
                  let d := cwDispatchTail cfg s6 i
                  (d.1, r.2 ++ d.2)
            else cwDispatchTail cfg s5 i

/-- The `while` loop of `Writer::Impl::StartWrite` (lines 1811-1822):
while no error and staging exceeds the max pending threshold or pending
exceeds the effective threshold, queue staged bytes to chunk writers
(`QueueWrite(theQueueWriteThreshold)`, lines 1954-1976, and
`StartQueuedWrite`, lines 2008-2017), stopping when the staging buffer
drains. -/
def swLoopF (cfg : Cfg) : Nat → WriterS → Int → Int → WriterS × List Event
  | 0, s, _, _ => (s, [])
  | fuel+1, s, thr, qthr =>
    if s.errorCode = 0 ∧ (s.maxPendingThreshold ≤ (s.bufferBytes : Int) ∨
        thr ≤ pendingSizeSelf s) then
      match s.striper with
      | some _ => (s, [])
      | none =>
        let q := fileQueueWriteF cfg s qthr
        if 0 < q.2.1 then
          let s1 : WriterS := { q.1 with offset := q.1.offset + (q.2.1 : Int) }
          let s2 : WriterS := wAssert
            { s1 with pendingCount := s1.pendingCount + (q.2.1 : Int) }
            (s1.writers ≠ [])
          let c : WriterS × List Event :=
            match s2.writers.head? with
            | some front => cwStartWriteF cfg fuel s2 front.id
            | none => (s2, [])
          if c.1.bufferBytes = 0 then (c.1, c.2)
          else
            let g := swLoopF cfg fuel c.1 thr qthr
            (g.1, c.2 ++ g.2)
        else if q.1.bufferBytes = 0 then (q.1, [])
        else swLoopF cfg fuel q.1 thr qthr
    else (s, [])

/-- The closing iteration of `StartWrite` (lines 1830-1844): close the
first still-open chunk writer and restart from the beginning, until none is
open. -/
def closeAllF (cfg : Cfg) : Nat → WriterS → WriterS × List Event
  | 0, s => (s, [])
  | fuel+1, s =>
    match s.writers.find? (fun w => decide (cwIsOpen w)) with
    | none => (s, [])
    | some w =>
      let c := cwCloseF cfg fuel s w.id
      let g := closeAllF cfg fuel c.1
      (g.1, c.2 ++ g.2)

/-- `Writer::Impl::StartWrite` (lines 1789-1849).  Returns the source's
`int` result (the error code at the corresponding return) with the state
and events. -/
def startWriteF (cfg : Cfg) : Nat → WriterS → Bool →
    Int × WriterS × List Event
  | 0, s, _ => (s.errorCode, s, [])
  | fuel+1, s, inFlushFlag =>
    if s.sleeping = true then (s.errorCode, s, [])
    else
      let theFlushFlag := inFlushFlag || s.closing
      let theWriteThreshold : Int :=
        max 1 (if theFlushFlag then 1 else s.writeThreshold)
      let theQueueWriteThreshold := min s.maxPendingThreshold
        theWriteThreshold
      let l := swLoopF cfg fuel s theWriteThreshold theQueueWriteThreshold
      if l.1.closing = false then (l.1.errorCode, l.1, l.2)
      else if l.1.writers = [] then
        let r := rcF cfg fuel l.1 none 0 0
        (r.1.errorCode, r.1, l.2 ++ r.2.1)
      else
        let c := closeAllF cfg fuel l.1
        let f :=
          if c.1.writers = [] ∧ c.1.closing = true then
            let u := setFileSizeF c.1
            (u.1, u.2.1)
          else (c.1, [])
        (f.1.errorCode, f.1, l.2 ++ c.2 ++ f.2)

end


/-! ### The public operations built on the core -/

/-- The staging-and-start tail of `Writer::Impl::Write` (lines 259-283):
stage the bytes, install a nonnegative threshold, start writing, and
translate the error code into the returned byte count. -/
def writeStage (cfg : Cfg) (fuel : Nat) (s : WriterS) (inLength : Int)
    (inFlushFlag : Bool) (inWriteThreshold : Int) (ev : List Event) :
    Int × WriterS × List Event :=
  let st := stageBytes cfg.defaultBufferSize s inLength
  let s1 := if 0 ≤ inWriteThreshold then
      { st.1 with writeThreshold := inWriteThreshold }
    else st.1
  let t := startWriteF cfg fuel s1 inFlushFlag
  ((if t.1 = 0 then inLength else if t.1 < 0 then t.1 else -t.1),
    t.2.1, ev ++ t.2.2)

/-- `Writer::Impl::Write` (lines 220-283).  Note the zero-length branch:
`ReportCompletion(0, inLength, inOffset)` passes `inLength` as the
completion OFFSET and `inOffset` as the completion SIZE (the parameters of
`ReportCompletion` are `(inWriterPtr, inOffset, inSize)`). -/
def writeF (cfg : Cfg) (fuel : Nat) (s : WriterS) (inLength inOffset : Int)
    (inFlushFlag : Bool) (inWriteThreshold : Int) :
    Int × WriterS × List Event :=
  if inOffset < 0 then (kErrorParameters, s, [])
  else if s.errorCode ≠ 0 then
    ((if s.errorCode < 0 then s.errorCode else -s.errorCode), s, [])
  else if s.closing = true ∨ ¬ wIsOpen s then (kErrorParameters, s, [])
  else if inLength ≤ 0 then
    let r := rcF cfg fuel s none inLength inOffset
    if r.2.2 = true ∧ inFlushFlag = true then
      let t := startWriteF cfg fuel r.1 true
      (t.1, t.2.1, r.2.1 ++ t.2.2)
    else (0, r.1, r.2.1)
  else if inOffset ≠ s.offset + (s.bufferBytes : Int) then
    if s.replicaCount = 0 then (kErrorSeek, s, [])
    else
      let f := startWriteF cfg fuel s true
      let theRet := if f.1 < 0 then f.1 else -f.1
      if theRet < 0 then (theRet, f.2.1, f.2.2)
      else
        writeStage cfg fuel { f.2.1 with offset := inOffset } inLength
          inFlushFlag inWriteThreshold f.2.2
  else writeStage cfg fuel s inLength inFlushFlag inWriteThreshold []

/-- `Writer::Impl::Flush` (lines 284-288). -/
def flushF (cfg : Cfg) (fuel : Nat) (s : WriterS) :
    Int × WriterS × List Event :=
  let t := startWriteF cfg fuel s true
  ((if t.1 < 0 then t.1 else -t.1), t.2.1, t.2.2)

/-- `Writer::Impl::Close` (lines 206-219). -/
def closeF (cfg : Cfg) (fuel : Nat) (s : WriterS) :
    Int × WriterS × List Event :=
  if ¬ wIsOpen s then (0, s, [])
  else if s.errorCode ≠ 0 then (s.errorCode, s, [])
  else if s.closing = true then (kErrorTryAgain, s, [])
  else
    let t := startWriteF cfg fuel { s with closing := true } false
    (t.1, t.2.1, t.2.2)

/-- `Writer::Impl::Open` (lines 136-205) for `striper_type = NONE` — the
only striper the embedded core instantiates itself; `Striper::Create`
returns null for it and leaves the open-chunk-block size at the chunk
size. -/
def openF (cfg : Cfg) (fuel : Nat) (s : WriterS) (inFileId : Int)
    (path : String) (inFileSize : Int) (inReplicaCount : Int) :
    Int × WriterS × List Event :=
  match openEarlyReturn s inFileId path inFileSize inReplicaCount with
  | some e => (e, s, [])
  | none =>
    let s1 := { s with
      striper := none,
      openChunkBlockSize := (cfg.chunkSize : Int),
      bufferBytes := 0,
      replicaCount := inReplicaCount,
      fileSize := inFileSize,
      partialBuffersCount := 0,
      pathName := path,
      errorCode := 0,
      fileId := inFileId,
      truncateFid := -1,
      truncateFileOffset := inFileSize,
      retryCount := 0,
      maxPendingThreshold := (s.maxWriteSize : Int) }
    startWriteF cfg fuel s1 false

/-! ### States for the claim theorems on SetFileSize, Write staging and Open -/

/-- The state `SetFileSize` leaves behind after enqueueing the truncate op:
the op carries the file id and the computed size becomes the committed
size. -/
def setFileSizeEnqueuedState (s : WriterS) : WriterS :=
  { s with truncateFid := s.fileId,
           truncateFileOffset := setFileSizeComputedSize s }

/-- A close-time state of a plain replicated file (no striper, replica
count 3) with five bytes written: the spec's condition for emitting the
truncate op holds, the code's does not. -/
def c1ReplicatedState : WriterS :=
  { fileId := 1, pathName := "f", replicaCount := 3, offset := 5,
    closing := true }

/-- An object-store close state (replica count 0, five bytes written). -/
def c1ObjectStoreState : WriterS :=
  { fileId := 1, pathName := "f", replicaCount := 0, offset := 5,
    closing := true }

/-- An open writer with small-write coalescing disabled
(`max_partial_buffers = 0`). -/
def c3ZeroMpbState : WriterS :=
  { fileId := 1, pathName := "f", replicaCount := 3,
    maxPartialBuffersCount := 0, partialBuffersCount := 0 }

/-- A writer currently open (same identity as the re-open below) and in the
middle of a close. -/
def c6ClosingState : WriterS :=
  { fileId := 7, pathName := "p", closing := true, replicaCount := 3 }

/-! ### States for the claim theorems on Write, Flush and completion accounting -/

/-- An open object-store writer at cursor 0. -/
def c4ObjectStoreState : WriterS :=
  { fileId := 1, pathName := "f", replicaCount := 0,
    maxPendingThreshold := 1048576, maxWriteSize := 1048576 }

/-- An open replicated writer in the middle of a close, with no chunk
writers left. -/
def c7ClosingState : WriterS :=
  { fileId := 1, pathName := "f", replicaCount := 3, closing := true,
    maxPendingThreshold := 1048576, maxWriteSize := 1048576 }

/-- A freshly opened replicated writer: replica count 3, write threshold
one byte, one-megabyte max write size. -/
def c10ReplState : WriterS :=
  { fileId := 1, pathName := "f", replicaCount := 3, writeThreshold := 1,
    maxWriteSize := 1048576, maxPendingThreshold := 1048576 }

/-- An open, error-free replicated writer with nothing staged, pending or
queued. -/
def c7OpenState : WriterS :=
  { fileId := 1, pathName := "f", replicaCount := 3, writeThreshold := 1,
    maxWriteSize := 1048576, maxPendingThreshold := 1048576 }

/-- The writer of the pending-count scenario, freshly opened: replica
count 3, write threshold one byte, one-megabyte max write size. -/
def c8Open : WriterS :=
  (openF {} 8
    { pathName := "", maxWriteSize := 1048576, writeThreshold := 1 }
    1 "f" 0 3).2.1

/-- After `Write(100 bytes @ 0)`: all bytes queued to a fresh chunk
writer whose chunk allocation is still in flight; nothing acknowledged. -/
def c8AfterData : Int × WriterS × List Event :=
  writeF {} 8 c8Open 100 0 false (-1)

/-- After a further zero-length `Write` at offset 64. -/
def c8AfterZero : Int × WriterS × List Event :=
  writeF {} 8 c8AfterData.2.1 0 64 false (-1)

theorem qwOpSize_pos (M B theSize : Nat) (hM : 0 < M) (hB : 0 < B)
    (hs : 0 < theSize) : 0 < qwOpSize M B theSize := by
  unfold qwOpSize
  have h0 : 0 < min M theSize := lt_min hM hs
  split
  · have : min M theSize % B < B := Nat.mod_lt _ hB
    omega
  · exact h0

theorem qwOpSize_le (M B theSize : Nat) : qwOpSize M B theSize ≤ min M theSize := by
  unfold qwOpSize
  split <;> omega

theorem ivDisj_symm {i j : Nat × Nat} (h : ivDisj i j) : ivDisj j i :=
  fun b hb => h b ⟨hb.2, hb.1⟩

theorem inIvs_cons {iv : Nat × Nat} {l : List (Nat × Nat)} {b : Nat} :
    inIvs (iv :: l) b ↔ memIv iv b ∨ inIvs l b := by
  simp [inIvs]

theorem inIvs_perm {l l' : List (Nat × Nat)} (h : l.Perm l') (b : Nat) :
    inIvs l b ↔ inIvs l' b := by
  unfold inIvs
  constructor
  · rintro ⟨iv, hm, hb⟩; exact ⟨iv, h.mem_iff.mp hm, hb⟩
  · rintro ⟨iv, hm, hb⟩; exact ⟨iv, h.mem_iff.mpr hm, hb⟩

theorem not_memIv_degenerate {a b : Nat} {c : Nat} (h : c ≤ a) :
    ¬ memIv (a, c) b := by
  intro hb
  exact absurd (lt_of_le_of_lt (le_trans h hb.1) hb.2) (lt_irrefl _)

/-- The full contract of the claiming loop: the cursor only advances, a
`true` flag means the whole range was claimed, the cursor stays within the
range, the resulting bitmap is the old one plus the newly claimed blocks,
and every newly claimed block was previously clear. -/
theorem claimBlocks_spec (bm : Finset Nat) (cur endb : Nat) :
    cur ≤ (claimBlocks bm cur endb).2.1 ∧
    ((claimBlocks bm cur endb).2.2 = true →
      endb ≤ (claimBlocks bm cur endb).2.1) ∧
    (cur ≤ endb → (claimBlocks bm cur endb).2.1 ≤ endb) ∧
    (∀ b, b ∈ (claimBlocks bm cur endb).1 ↔
      b ∈ bm ∨ (cur ≤ b ∧ b < (claimBlocks bm cur endb).2.1)) ∧
    (∀ b, cur ≤ b → b < (claimBlocks bm cur endb).2.1 → b ∉ bm) := by
  induction bm, cur, endb using claimBlocks.induct with
  | case1 bm cur endb hlt hmem =>
    rw [claimBlocks, if_pos hlt, if_pos hmem]
    dsimp only
    refine ⟨le_rfl, by simp, fun h => h, fun b => ?_,
      fun b h1 h2 => absurd (lt_of_le_of_lt h1 h2) (lt_irrefl _)⟩
    constructor
    · exact fun h => Or.inl h
    · rintro (h | h)
      · exact h
      · omega
  | case2 bm cur endb hlt hmem ih =>
    rw [claimBlocks, if_pos hlt, if_neg hmem]
    obtain ⟨ih1, ih2, ih3, ih4, ih5⟩ := ih
    refine ⟨by omega, fun h => ih2 h, fun _ => ih3 (by omega), fun b => ?_,
      fun b h1 h2 => ?_⟩
    · rw [ih4 b]
      simp only [Finset.mem_insert]
      constructor
      · rintro ((h | h) | h)
        · subst h; exact Or.inr ⟨le_rfl, by omega⟩
        · exact Or.inl h
        · exact Or.inr ⟨by omega, h.2⟩
      · rintro (h | h)
        · exact Or.inl (Or.inr h)
        · rcases Nat.eq_or_lt_of_le h.1 with he | hlt2
          · exact Or.inl (Or.inl he.symm)
          · exact Or.inr ⟨by omega, h.2⟩
    · rcases Nat.eq_or_lt_of_le h1 with he | hlt2
      · subst he; exact hmem
      · intro hb
        exact ih5 b (by omega) h2 (Finset.mem_insert_of_mem hb)
  | case3 bm cur endb hlt =>
    rw [claimBlocks, if_neg hlt]
    dsimp only
    refine ⟨le_rfl, fun _ => by omega, fun h => h, fun b => ?_,
      fun b h1 h2 => absurd (lt_of_le_of_lt h1 h2) (lt_irrefl _)⟩
    constructor
    · exact fun h => Or.inl h
    · rintro (h | h)
      · exact h
      · omega

/-- Growing the head interval from `(a, c)` to `(a, c')` preserves pairwise
disjointness and the union characterization, provided the newly covered
blocks `[c, c')` were clear in the bitmap. -/
theorem inv_grow {a c c' : Nat} {l : List (Nat × Nat)} {bm bm' : Finset Nat}
    (hac : a ≤ c) (hcc : c ≤ c')
    (hpw : List.Pairwise ivDisj ((a, c) :: l))
    (hbm : ∀ b, b ∈ bm ↔ inIvs ((a, c) :: l) b)
    (hbm2 : ∀ b, b ∈ bm' ↔ b ∈ bm ∨ (c ≤ b ∧ b < c'))
    (hfresh : ∀ b, c ≤ b → b < c' → b ∉ bm) :
    List.Pairwise ivDisj ((a, c') :: l) ∧
    (∀ b, b ∈ bm' ↔ inIvs ((a, c') :: l) b) := by
  rw [List.pairwise_cons] at hpw ⊢
  obtain ⟨hhead, htail⟩ := hpw
  constructor
  · refine ⟨fun j hj b hb => ?_, htail⟩
    obtain ⟨⟨hab, hbc⟩, hjb⟩ := hb
    by_cases hcb : b < c
    · exact hhead j hj b ⟨⟨hab, hcb⟩, hjb⟩
    · have hfb := hfresh b (by omega) hbc
      rw [hbm] at hfb
      exact hfb ⟨j, List.mem_cons_of_mem _ hj, hjb⟩
  · intro b
    rw [hbm2, hbm, inIvs_cons, inIvs_cons]
    unfold memIv
    constructor
    · rintro ((h | h) | h)
      · exact Or.inl ⟨h.1, by omega⟩
      · exact Or.inr h
      · exact Or.inl ⟨by omega, h.2⟩
    · rintro (h | h)
      · rcases Nat.lt_or_ge b c with h2 | h2
        · exact Or.inl (Or.inl ⟨h.1, h2⟩)
        · exact Or.inr ⟨h2, h.2⟩
      · exact Or.inl (Or.inr h)

/-- Removing the head interval and erasing exactly its blocks from the
bitmap preserves the union characterization on the remaining intervals. -/
theorem inv_remove {iv : Nat × Nat} {l : List (Nat × Nat)}
    {bm bm' : Finset Nat}
    (hpw : List.Pairwise ivDisj (iv :: l))
    (hbm : ∀ b, b ∈ bm ↔ inIvs (iv :: l) b)
    (hbm2 : ∀ b, b ∈ bm' ↔ b ∈ bm ∧ ¬ memIv iv b) :
    List.Pairwise ivDisj l ∧ (∀ b, b ∈ bm' ↔ inIvs l b) := by
  rw [List.pairwise_cons] at hpw
  obtain ⟨hhead, htail⟩ := hpw
  refine ⟨htail, fun b => ?_⟩
  rw [hbm2, hbm, inIvs_cons]
  constructor
  · rintro ⟨h | h, hniv⟩
    · exact absurd h hniv
    · exact h
  · intro h
    obtain ⟨j, hj, hjb⟩ := h
    exact ⟨Or.inr ⟨j, hj, hjb⟩, fun hivb => hhead j hj b ⟨hivb, hjb⟩⟩

/-- Adding a degenerate (empty) interval preserves the invariant pieces. -/
theorem inv_add_empty {a : Nat} {l : List (Nat × Nat)} {bm : Finset Nat}
    (hpw : List.Pairwise ivDisj l)
    (hbm : ∀ b, b ∈ bm ↔ inIvs l b) :
    List.Pairwise ivDisj ((a, a) :: l) ∧
    (∀ b, b ∈ bm ↔ inIvs ((a, a) :: l) b) := by
  constructor
  · rw [List.pairwise_cons]
    exact ⟨fun j _ b hb => not_memIv_degenerate le_rfl hb.1, hpw⟩
  · intro b
    rw [hbm, inIvs_cons]
    constructor
    · exact fun h => Or.inr h
    · rintro (h | h)
      · exact absurd h (not_memIv_degenerate le_rfl)
      · exact h

theorem ivList_mk (B : Nat) (pnd infl : List CWOp) (bm : Finset Nat) :
    ivList B ⟨pnd, infl, bm⟩ = pnd.map (claimedIv B) ++ infl.map (fullIv B) :=
  rfl

theorem ivList_mk_pending_append (B : Nat) (pnd infl : List CWOp)
    (bm : Finset Nat) (o : CWOp) :
    (ivList B ⟨pnd ++ [o], infl, bm⟩).Perm
      (claimedIv B o :: (pnd.map (claimedIv B) ++ infl.map (fullIv B))) := by
  rw [ivList_mk]
  simp [List.append_assoc]

theorem ivList_mk_pending_middle (B : Nat) (p1 p2 infl : List CWOp)
    (bm : Finset Nat) (o : CWOp) :
    (ivList B ⟨p1 ++ o :: p2, infl, bm⟩).Perm
      (claimedIv B o ::
        ((p1 ++ p2).map (claimedIv B) ++ infl.map (fullIv B))) := by
  rw [ivList_mk]
  simp [List.append_assoc]

theorem ivList_mk_inflight_middle (B : Nat) (pnd q1 q2 : List CWOp)
    (bm : Finset Nat) (o : CWOp) :
    (ivList B ⟨pnd, q1 ++ o :: q2, bm⟩).Perm
      (fullIv B o ::
        (pnd.map (claimedIv B) ++ (q1 ++ q2).map (fullIv B))) := by
  rw [ivList_mk]
  have h1 := @List.perm_middle _ (fullIv B o)
    (pnd.map (claimedIv B) ++ q1.map (fullIv B)) (q2.map (fullIv B))
  simpa [List.append_assoc] using h1

theorem ivList_mk_inflight_append (B : Nat) (pnd infl : List CWOp)
    (bm : Finset Nat) (o : CWOp) :
    (ivList B ⟨pnd, infl ++ [o], bm⟩).Perm
      (fullIv B o :: (pnd.map (claimedIv B) ++ infl.map (fullIv B))) := by
  rw [ivList_mk]
  have h1 := @List.perm_append_singleton _ (fullIv B o)
    (pnd.map (claimedIv B) ++ infl.map (fullIv B))
  refine List.Perm.trans ?_ h1
  simp [List.append_assoc]

theorem endBlk_mono (B : Nat) (o : CWOp) (n : Nat) :
    endBlk B o ≤ endBlk B { o with size := o.size + n } := by
  unfold endBlk blk
  dsimp only
  exact Nat.add_le_add_left (Nat.div_le_div_right (by omega)) _

/-- Every step of the write pipeline preserves the bitmap invariant. -/
theorem FlightInv_step {B : Nat} {s t : FlightState}
    (hInv : FlightInv B s) (hst : FStep B s t) : FlightInv B t := by
  obtain ⟨hwf, hpw, hbm⟩ := hInv
  cases hst with
  | enqueue o ho =>
    have hperm := ivList_mk_pending_append B s.pending s.inflight s.bm o
    have hco : claimedIv B o = (blk B o, blk B o) := by
      rw [claimedIv, ho]
    rw [hco] at hperm
    have hadd := inv_add_empty (a := blk B o) hpw hbm
    refine ⟨?_, ?_, ?_⟩
    · intro o' ho'
      rcases List.mem_append.mp ho' with h | h
      · exact hwf o' h
      · rcases List.mem_singleton.mp h with rfl
        rw [ho]
        exact ⟨le_rfl, Nat.le_add_right _ _⟩
    · exact (List.Perm.pairwise_iff ivDisj_symm hperm).mpr hadd.1
    · intro b
      exact (hadd.2 b).trans (inIvs_perm hperm b).symm
  | extend p o n hp =>
    have hiv : ivList B ⟨p ++ [{ o with size := o.size + n }], s.inflight, s.bm⟩
        = ivList B s := by
      rw [ivList_mk, ivList, hp]
      simp [claimedIv, blk]
    refine ⟨?_, hiv ▸ hpw, fun b => hiv ▸ hbm b⟩
    intro o' ho'
    rcases List.mem_append.mp ho' with h | h
    · exact hwf o' (hp ▸ List.mem_append_left _ h)
    · rcases List.mem_singleton.mp h with rfl
      have hwo := hwf o (hp ▸ List.mem_append_right _ (List.mem_singleton_self o))
      exact ⟨hwo.1, le_trans hwo.2 (endBlk_mono B o n)⟩
  | dispatch p1 o p2 hp =>
    have hwo := hwf o (hp ▸ List.mem_append_right _ (List.mem_cons_self o p2))
    obtain ⟨hsp1, hsp2, hsp3, hsp4, hsp5⟩ :=
      claimBlocks_spec s.bm o.cur (endBlk B o)
    have hcle := hsp3 hwo.2
    have hperm : (ivList B s).Perm (claimedIv B o ::
        ((p1 ++ p2).map (claimedIv B) ++ s.inflight.map (fullIv B))) := by
      have := ivList_mk_pending_middle B p1 p2 s.inflight s.bm o
      rwa [show (⟨p1 ++ o :: p2, s.inflight, s.bm⟩ : FlightState) = s by
        cases s; simp_all] at this
    have hpw1 := (List.Perm.pairwise_iff ivDisj_symm hperm).mp hpw
    have hbm1 : ∀ b, b ∈ s.bm ↔ inIvs (claimedIv B o ::
        ((p1 ++ p2).map (claimedIv B) ++ s.inflight.map (fullIv B))) b :=
      fun b => (hbm b).trans (inIvs_perm hperm b)
    have hgrow := @inv_grow (blk B o) o.cur
      ((claimBlocks s.bm o.cur (endBlk B o)).2.1) _ _
      ((claimBlocks s.bm o.cur (endBlk B o)).1)
      hwo.1 hsp1 hpw1 hbm1 hsp4 hsp5
    rw [dispatchStep]
    split
    · rename_i hok
      have hce : (claimBlocks s.bm o.cur (endBlk B o)).2.1 = endBlk B o :=
        le_antisymm hcle (hsp2 hok)
      have hperm2 := ivList_mk_inflight_append B (p1 ++ p2) s.inflight
        ((claimBlocks s.bm o.cur (endBlk B o)).1)
        { o with cur := (claimBlocks s.bm o.cur (endBlk B o)).2.1 }
      have hfo : fullIv B
          { o with cur := (claimBlocks s.bm o.cur (endBlk B o)).2.1 }
          = (blk B o, (claimBlocks s.bm o.cur (endBlk B o)).2.1) := by
        rw [fullIv]
        exact congrArg _ hce.symm
      rw [hfo] at hperm2
      refine ⟨?_, ?_, ?_⟩
      · intro o'' ho''
        rcases List.mem_append.mp ho'' with h | h
        · exact hwf o'' (hp ▸ List.mem_append_left _ h)
        · exact hwf o'' (hp ▸ List.mem_append_right _ (List.mem_cons_of_mem _ h))
      · exact (List.Perm.pairwise_iff ivDisj_symm hperm2).mpr hgrow.1
      · intro b
        exact (hgrow.2 b).trans (inIvs_perm hperm2 b).symm
    · have hperm2 := ivList_mk_pending_middle B p1 p2 s.inflight
        ((claimBlocks s.bm o.cur (endBlk B o)).1)
        { o with cur := (claimBlocks s.bm o.cur (endBlk B o)).2.1 }
      have hco : claimedIv B
          { o with cur := (claimBlocks s.bm o.cur (endBlk B o)).2.1 }
          = (blk B o, (claimBlocks s.bm o.cur (endBlk B o)).2.1) := rfl
      rw [hco] at hperm2
      refine ⟨?_, ?_, ?_⟩
      · intro o'' ho''
        rcases List.mem_append.mp ho'' with h | h
        · exact hwf o'' (hp ▸ List.mem_append_left _ h)
        · rcases List.mem_cons.mp h with rfl | h
          · exact ⟨le_trans hwo.1 hsp1, hcle⟩
          · exact hwf o''
              (hp ▸ List.mem_append_right _ (List.mem_cons_of_mem _ h))
      · exact (List.Perm.pairwise_iff ivDisj_symm hperm2).mpr hgrow.1
      · intro b
        exact (hgrow.2 b).trans (inIvs_perm hperm2 b).symm
  | doneOk q1 o q2 hq =>
    have hperm : (ivList B s).Perm (fullIv B o ::
        (s.pending.map (claimedIv B) ++ (q1 ++ q2).map (fullIv B))) := by
      have := ivList_mk_inflight_middle B s.pending q1 q2 s.bm o
      rwa [show (⟨s.pending, q1 ++ o :: q2, s.bm⟩ : FlightState) = s by
        cases s; simp_all] at this
    have hpw1 := (List.Perm.pairwise_iff ivDisj_symm hperm).mp hpw
    have hbm1 : ∀ b, b ∈ s.bm ↔ inIvs (fullIv B o ::
        (s.pending.map (claimedIv B) ++ (q1 ++ q2).map (fullIv B))) b :=
      fun b => (hbm b).trans (inIvs_perm hperm b)
    have hrem := @inv_remove _ _ _ (s.bm \ doneRange B o) hpw1 hbm1 (by
      intro b
      rw [Finset.mem_sdiff, doneRange, Finset.mem_Ico]
      rfl)
    exact ⟨hwf, hrem.1, hrem.2⟩
  | doneFail q1 o q2 hq =>
    have hperm : (ivList B s).Perm (fullIv B o ::
        (s.pending.map (claimedIv B) ++ (q1 ++ q2).map (fullIv B))) := by
      have := ivList_mk_inflight_middle B s.pending q1 q2 s.bm o
      rwa [show (⟨s.pending, q1 ++ o :: q2, s.bm⟩ : FlightState) = s by
        cases s; simp_all] at this
    have hpw1 := (List.Perm.pairwise_iff ivDisj_symm hperm).mp hpw
    have hbm1 : ∀ b, b ∈ s.bm ↔ inIvs (fullIv B o ::
        (s.pending.map (claimedIv B) ++ (q1 ++ q2).map (fullIv B))) b :=
      fun b => (hbm b).trans (inIvs_perm hperm b)
    have hrem := @inv_remove _ _ _ (s.bm \ doneRange B o) hpw1 hbm1 (by
      intro b
      rw [Finset.mem_sdiff, doneRange, Finset.mem_Ico]
      rfl)
    have hadd := inv_add_empty (a := blk B o) hrem.1 hrem.2
    have hperm2 := ivList_mk_pending_append B s.pending (q1 ++ q2)
      (s.bm \ doneRange B o) { o with cur := blk B o }
    have hco : claimedIv B { o with cur := blk B o }
        = (blk B o, blk B o) := rfl
    rw [hco] at hperm2
    refine ⟨?_, ?_, ?_⟩
    · intro o' ho'
      rcases List.mem_append.mp ho' with h | h
      · exact hwf o' h
      · rcases List.mem_singleton.mp h with rfl
        exact ⟨le_rfl, Nat.le_add_right _ _⟩
    · exact (List.Perm.pairwise_iff ivDisj_symm hperm2).mpr hadd.1
    · intro b
      exact (hadd.2 b).trans (inIvs_perm hperm2 b).symm

/-- The bitmap invariant holds in every reachable chunk-writer state. -/
theorem FlightInv_reachable {B : Nat} {s : FlightState}
    (h : FReachable B s) : FlightInv B s := by
  induction h with
  | init =>
    refine ⟨fun o ho => absurd ho (List.not_mem_nil o), ?_, ?_⟩
    · simp [ivList]
    · intro b
      simp [ivList, inIvs]
  | step _ hst ih => exact FlightInv_step ih hst

/-- The invariant yields the claim: per-block exclusivity of the in-flight
queue, and bitmap coverage of every in-flight range. -/
theorem flightInv_exclusive {B : Nat} {s : FlightState}
    (h : FlightInv B s) : BlockExclusive B s ∧ BitmapCovers B s := by
  obtain ⟨_, hpw, hbm⟩ := h
  constructor
  · intro b
    have h2 : List.Pairwise ivDisj (s.inflight.map (fullIv B)) :=
      (List.pairwise_append.mp hpw).2.1
    have h3 := List.pairwise_map.mp h2
    exact h3.imp (fun hd hb => hd b hb)
  · intro o ho b hb
    rw [hbm]
    exact ⟨fullIv B o, List.mem_append_right _ (List.mem_map_of_mem _ ho), hb⟩

/-! ### Op-size bounds through `QueueWrite` -/

theorem qwBuildLoop_sizes (M B thr fuel thePos theSize : Nat)
    (acc : List CWOp) :
    ∀ o ∈ (qwBuildLoop M B thr fuel thePos theSize acc).1,
      o ∈ acc ∨ o.size ≤ M := by
  induction fuel, thePos, theSize, acc using qwBuildLoop.induct M B thr
      with
  | case1 thePos theSize acc =>
    intro o ho
    simp only [qwBuildLoop] at ho
    exact Or.inl ho
  | case2 fuel thePos theSize acc h ih =>
    intro o ho
    rw [qwBuildLoop, if_pos h] at ho
    rcases ih o ho with h1 | h1
    · rcases List.mem_append.mp h1 with h2 | h2
      · exact Or.inl h2
      · rcases List.mem_singleton.mp h2 with rfl
        exact Or.inr (le_trans (qwOpSize_le M B theSize) (min_le_left _ _))
    · exact Or.inr h1
  | case3 fuel thePos theSize acc h =>
    intro o ho
    rw [qwBuildLoop, if_neg h] at ho
    exact Or.inl ho

theorem qwLeadFragment_sizes (B thr1 : Nat) (r1 : List CWOp × Nat × Nat) :
    ∀ o ∈ (qwLeadFragment B thr1 r1).1, o ∈ r1.1 ∨ o.size ≤ B := by
  intro o ho
  unfold qwLeadFragment at ho
  split at ho
  · rcases List.mem_append.mp ho with h1 | h1
    · exact Or.inl h1
    · rcases List.mem_singleton.mp h1 with rfl
      exact Or.inr (le_trans (min_le_right _ _) (Nat.sub_le _ _))
  · exact Or.inl ho

theorem qwCoalesceNWr_le (M B : Nat) (op : CWOp) (theSize : Nat)
    (hB : 0 < B) (hBM : B ≤ M) :
    qwCoalesceNWr M B op theSize ≤ (M : Int) - op.size := by
  have hBne : (B : Int) ≠ 0 := by
    simp only [ne_eq, Nat.cast_eq_zero]
    omega
  have hBM2 : (B : Int) ≤ (M : Int) := by exact_mod_cast hBM
  unfold qwCoalesceNWr
  by_cases hh : op.off % B = 0
  · simp only [if_pos hh]
    split
    · have hmod := Int.emod_nonneg
        ((op.size : Int) + min (theSize : Int) ((M : Int) - op.size)) hBne
      have hle : min (theSize : Int) ((M : Int) - op.size)
          ≤ (M : Int) - op.size := min_le_right _ _
      omega
    · exact min_le_right _ _
  · simp only [if_neg hh]
    have hhge : (0 : Int) ≤ ((op.off % B : Nat) : Int) := Int.ofNat_nonneg _
    split
    · have hmod := Int.emod_nonneg ((op.size : Int) + min (theSize : Int)
        ((B : Int) - ((op.off % B : Nat) : Int) - op.size)) hBne
      have hle : min (theSize : Int)
            ((B : Int) - ((op.off % B : Nat) : Int) - op.size)
          ≤ (B : Int) - ((op.off % B : Nat) : Int) - op.size :=
        min_le_right _ _
      omega
    · have hle : min (theSize : Int)
            ((B : Int) - ((op.off % B : Nat) : Int) - op.size)
          ≤ (B : Int) - ((op.off % B : Nat) : Int) - op.size :=
        min_le_right _ _
      omega

theorem qwCoalesce_grow_le (M B : Nat) (op : CWOp) (theSize : Nat)
    (hB : 0 < B) (hBM : B ≤ M)
    (hpos : 0 < qwCoalesceNWr M B op theSize) :
    op.size + (qwCoalesceNWr M B op theSize).toNat ≤ M := by
  have h1 := qwCoalesceNWr_le M B op theSize hB hBM
  omega

theorem qwCoalesce_sizes (M B : Nat) (pending : List CWOp)
    (theSize thePos : Nat) (hB : 0 < B) (hBM : B ≤ M) :
    ∀ o ∈ (qwCoalesce M B pending theSize thePos).1,
      o ∈ pending ∨ o.size ≤ M := by
  intro o ho
  unfold qwCoalesce at ho
  split at ho
  · exact Or.inl ho
  · rename_i op hlast
    split at ho
    · rename_i hc
      rcases List.mem_append.mp ho with h1 | h1
      · exact Or.inl ((List.dropLast_prefix pending).subset h1)
      · rcases List.mem_singleton.mp h1 with rfl
        exact Or.inr (qwCoalesce_grow_le M B op theSize hB hBM hc.2)
    · exact Or.inl ho

/-- Ops produced by a `QueueWrite` call are bounded by the effective max
write size, provided the checksum block size does not exceed it and the ops
already in the queue are bounded. -/
theorem chunkQueueWriteOps_sizes (C M B : Nat) (pending : List CWOp)
    (bufBytes inSize inOffset thr : Nat) (hB : 0 < B) (hBM : B ≤ M)
    (hp : ∀ o ∈ pending, o.size ≤ M) :
    ∀ o ∈ (chunkQueueWriteOps C M B pending bufBytes inSize inOffset thr).1,
      o.size ≤ M := by
  intro o ho
  unfold chunkQueueWriteOps at ho
  split at ho
  · exact hp o ho
  · dsimp only at ho
    rcases qwBuildLoop_sizes _ _ _ _ _ _ _ o ho with h1 | h1
    · rcases qwLeadFragment_sizes _ _ _ o h1 with h2 | h2
      · rcases qwCoalesce_sizes M B pending _ _ hB hBM o h2 with h3 | h3
        · exact hp o h3
        · exact h3
      · exact le_trans h2 hBM
    · exact h1

/-! ### Claim theorems: C2, C5, C9 -/

/-- C2 counterexample: the constructor does NOT round the configured max
write size down to a multiple of the checksum block size.  With the typical
sizes (chunk 64 MiB, block 64 KiB) and a configured value of 1 byte, the
installed value is one full checksum block, while rounding down would give
zero. -/
theorem mMaxWriteSize_not_rounded_down :
    mMaxWriteSize 67108864 65536 1 = 65536 ∧
    specRoundedDownMaxWriteSize 67108864 65536 1 = 0 ∧
    mMaxWriteSize 67108864 65536 1 ≠
      specRoundedDownMaxWriteSize 67108864 65536 1 := by
  refine ⟨by decide, by decide, by decide⟩

/-- C2 (amended): the effective max write size installed at construction is
the configured value (clamped at zero from below) rounded UP to a multiple
of the checksum block size, capped at the chunk size: it is a multiple of
the block size, at most the chunk size, at least `min(chunk, configured)`,
and exceeds the configured value by less than one block unless capped; and
every write op built by `QueueWrite` respects this limit. -/
theorem mMaxWriteSize_roundup_and_op_bound (C B : Nat) (w : Int)
    (hB : 0 < B) (hC : 0 < C) (hBC : B ∣ C) (hw : 1 ≤ w) :
    B ∣ mMaxWriteSize C B w ∧
    mMaxWriteSize C B w ≤ C ∧
    min C w.toNat ≤ mMaxWriteSize C B w ∧
    (mMaxWriteSize C B w < w.toNat + B ∨ mMaxWriteSize C B w = C) ∧
    B ≤ mMaxWriteSize C B w ∧
    (∀ pending bufBytes inSize inOffset thr,
      (∀ o ∈ pending, o.size ≤ mMaxWriteSize C B w) →
      ∀ o ∈ (chunkQueueWriteOps C (mMaxWriteSize C B w) B pending
          bufBytes inSize inOffset thr).1,
        o.size ≤ mMaxWriteSize C B w) := by
  have hw' : 1 ≤ w.toNat := by omega
  have hq := Nat.div_add_mod (w.toNat + B - 1) B
  have hrem : (w.toNat + B - 1) % B < B := Nat.mod_lt _ hB
  have hreq : (w.toNat + B - 1) / B * B = B * ((w.toNat + B - 1) / B) :=
    Nat.mul_comm _ _
  have hub : w.toNat ≤ (w.toNat + B - 1) / B * B := by omega
  have hlt : (w.toNat + B - 1) / B * B < w.toNat + B := by omega
  have hdvd : B ∣ (w.toNat + B - 1) / B * B := dvd_mul_left B _
  have hBr : B ≤ (w.toNat + B - 1) / B * B :=
    Nat.le_of_dvd (by omega) hdvd
  have heff : mMaxWriteSize C B w = min C ((w.toNat + B - 1) / B * B) := rfl
  have hBeff : B ≤ mMaxWriteSize C B w := by
    rw [heff]
    exact le_min (Nat.le_of_dvd hC hBC) hBr
  refine ⟨?_, ?_, ?_, ?_, hBeff, ?_⟩
  · rw [heff]
    rcases le_total C ((w.toNat + B - 1) / B * B) with h | h
    · rw [min_eq_left h]
      exact hBC
    · rw [min_eq_right h]
      exact hdvd
  · rw [heff]
    exact min_le_left _ _
  · rw [heff]
    exact min_le_min le_rfl hub
  · rw [heff]
    rcases le_total ((w.toNat + B - 1) / B * B) C with h | h
    · rw [min_eq_right h]
      exact Or.inl hlt
    · rw [min_eq_left h]
      exact Or.inr rfl
  · intro pending bufBytes inSize inOffset thr hp
    exact chunkQueueWriteOps_sizes C (mMaxWriteSize C B w) B pending
      bufBytes inSize inOffset thr hB hBeff hp

/-- Witness for `mMaxWriteSize_roundup_and_op_bound` at the typical sizes
and a configured max write size of 1 MiB. -/
theorem mMaxWriteSize_roundup_and_op_bound_witness :
    65536 ∣ mMaxWriteSize 67108864 65536 1048576 ∧
    mMaxWriteSize 67108864 65536 1048576 ≤ 67108864 := by
  have h := mMaxWriteSize_roundup_and_op_bound 67108864 65536 1048576
    (by decide) (by decide) (by decide) (by decide)
  exact ⟨h.1, h.2.1⟩

/-- C5: checksum-block exclusivity.  In every state of a chunk writer
reachable through queueing (`QueueWrite`), dispatch (`Write(WriteOp&)`) and
completion (`Done(WriteOp&)`), for every checksum-block index at most one
op of the in-flight queue has that block inside its range, and every block
of every in-flight op is set in the in-flight bitmap (bits are set before an
op moves to the queue and cleared when its completion arrives). -/
theorem checksum_block_exclusivity {B : Nat} {s : FlightState}
    (h : FReachable B s) : BlockExclusive B s ∧ BitmapCovers B s :=
  flightInv_exclusive (FlightInv_reachable h)

/-- Witness for `checksum_block_exclusivity`: a fresh writer that queues one
two-block op and dispatches it. -/
theorem checksum_block_exclusivity_witness :
    BlockExclusive 2 (dispatchStep 2 ⟨[⟨0, 3, 0⟩], [], ∅⟩ [] ⟨0, 3, 0⟩ []) ∧
    BitmapCovers 2 (dispatchStep 2 ⟨[⟨0, 3, 0⟩], [], ∅⟩ [] ⟨0, 3, 0⟩ []) :=
  checksum_block_exclusivity
    (FReachable.step
      (FReachable.step FReachable.init (FStep.enqueue _ ⟨0, 3, 0⟩ rfl))
      (FStep.dispatch _ [] ⟨0, 3, 0⟩ [] rfl))

/-- C9: lease clock arithmetic.  After a successful allocation the lease end
time is `now + max(1, duration − renew_slack)` with
`renew_slack = lease_interval / 3` (a ten-year sentinel when the server
returned no duration, i.e. a negative one), and every update of the lease
expiration sets it to `min(lease_end_time, now + lease_interval −
renew_slack)`. -/
theorem lease_clock_formulas (L now dur endT : Int) :
    (0 ≤ dur → leaseEndTimeOf L now dur = specLeaseEndTime L now dur) ∧
    (dur < 0 → leaseEndTimeOf L now dur = now + farFutureLeaseSentinel) ∧
    leaseExpireTimeOf L now endT = specLeaseExpireTime L now endT := by
  refine ⟨fun h => ?_, fun h => ?_, rfl⟩
  · unfold leaseEndTimeOf specLeaseEndTime kLeaseRenewTime
    rw [if_neg (not_lt.mpr h)]
  · unfold leaseEndTimeOf
    rw [if_pos h]

/-- Witness for `lease_clock_formulas` with a 300-second lease interval. -/
theorem lease_clock_formulas_witness :
    leaseEndTimeOf 300 1000 120 = specLeaseEndTime 300 1000 120 ∧
    leaseEndTimeOf 300 1000 (-1) = 1000 + farFutureLeaseSentinel ∧
    leaseExpireTimeOf 300 1000 5000 = specLeaseExpireTime 300 1000 5000 := by
  have h1 := lease_clock_formulas 300 1000 120 5000
  have h2 := lease_clock_formulas 300 1000 (-1) 5000
  exact ⟨h1.1 (by decide), h2.2.1 (by decide), h1.2.2⟩

theorem setFileSizeF_enqueued_iff (s : WriterS) :
    (setFileSizeF s).2.2 = true ↔
      ((s.striper.isSome ∨ s.replicaCount = 0) ∧ s.errorCode = 0 ∧
        s.truncateFid < 0 ∧ 0 ≤ setFileSizeComputedSize s ∧
        s.truncateFileOffset < setFileSizeComputedSize s) := by
  unfold setFileSizeF
  split
  · rename_i h
    refine iff_of_false (by simp) ?_
    rintro ⟨hc1, hc2, hc3, _, _⟩
    rcases h with ⟨h1, h2⟩ | h | h
    · rcases hc1 with hs | hs
      · cases hst : s.striper with
        | none => rw [hst] at hs; exact absurd hs (by simp)
        | some st => rw [hst] at h1; exact absurd h1 (by simp)
      · exact h2 hs
    · exact h hc2
    · omega
  · rename_i h1
    split
    · rename_i h2
      refine iff_of_false (by simp) ?_
      rintro ⟨_, _, _, hc4, hc5⟩
      omega
    · rename_i h2
      refine iff_of_true rfl ?_
      push_neg at h1 h2
      refine ⟨?_, h1.2.1, by have := h1.2.2; omega, h2.1, h2.2⟩
      cases hst : s.striper with
      | none => exact Or.inr (h1.1 (by rw [hst]; rfl))
      | some st => exact Or.inl rfl

theorem setFileSizeF_enqueued_state (s : WriterS)
    (h : (setFileSizeF s).2.2 = true) :
    (setFileSizeF s).1 = setFileSizeEnqueuedState s := by
  unfold setFileSizeF
  unfold setFileSizeF at h
  split at h
  · exact absurd h (by simp)
  · split at h
    · exact absurd h (by simp)
    · rename_i h1 h2
      rw [if_neg h1, if_neg h2]
      rfl

/-- C1 counterexample: on a close of an error-free plain replicated file
(no striper, `replica_count = 3 > 0`), with no truncate in flight and a
computed final size exceeding the committed one, `SetFileSize` does NOT
enqueue the truncate op — the claim's `replica_count > 0` disjunct is the
opposite of the code's `0 == mReplicaCount`. -/
theorem setFileSize_replicated_not_enqueued :
    (c1ReplicatedState.striper.isSome ∨ 0 < c1ReplicatedState.replicaCount) ∧
    c1ReplicatedState.errorCode = 0 ∧
    c1ReplicatedState.truncateFid < 0 ∧
    c1ReplicatedState.truncateFileOffset <
      setFileSizeComputedSize c1ReplicatedState ∧
    (setFileSizeF c1ReplicatedState).2.2 = false ∧
    (setFileSizeF c1ReplicatedState).1 = c1ReplicatedState := by
  decide

/-- C1 (amended): `SetFileSize` enqueues the truncate op if and only if
(striper present OR `replica_count = 0`) AND `error_code = 0` AND no
truncate op is already in flight AND the computed final size is nonnegative
and exceeds the last committed size; and having enqueued it once, an
immediate second call does not enqueue again. -/
theorem setFileSize_enqueue_iff (s : WriterS) :
    ((setFileSizeF s).2.2 = true ↔
      ((s.striper.isSome ∨ s.replicaCount = 0) ∧ s.errorCode = 0 ∧
        s.truncateFid < 0 ∧ 0 ≤ setFileSizeComputedSize s ∧
        s.truncateFileOffset < setFileSizeComputedSize s)) ∧
    ((setFileSizeF s).2.2 = true →
      (setFileSizeF (setFileSizeF s).1).2.2 = false) := by
  refine ⟨setFileSizeF_enqueued_iff s, fun h => ?_⟩
  rw [setFileSizeF_enqueued_state s h]
  cases hb : (setFileSizeF (setFileSizeEnqueuedState s)).2.2 with
  | false => rfl
  | true =>
    exfalso
    have hc := (setFileSizeF_enqueued_iff (setFileSizeEnqueuedState s)).mp hb
    have heq : setFileSizeComputedSize (setFileSizeEnqueuedState s)
        = setFileSizeComputedSize s := rfl
    have hfo : (setFileSizeEnqueuedState s).truncateFileOffset
        = setFileSizeComputedSize s := rfl
    rw [heq, hfo] at hc
    exact absurd hc.2.2.2.2 (lt_irrefl _)

/-- Witness for `setFileSize_enqueue_iff`: an object-store close state where
the truncate is enqueued, exactly once. -/
theorem setFileSize_enqueue_iff_witness :
    (setFileSizeF c1ObjectStoreState).2.2 = true ∧
    (setFileSizeF (setFileSizeF c1ObjectStoreState).1).2.2 = false := by
  have h := setFileSize_enqueue_iff c1ObjectStoreState
  have h1 := h.1.mpr (by decide)
  exact ⟨h1, h.2 h1⟩

/-- C3 counterexample: with `max_partial_buffers = 0` and a length of twice
the default buffer size (so the claim's copy condition
`length < 2 × default ∧ max_partial_buffers ≠ 0` is false and the claim
predicts a move), the code still copies into the staging buffer tail and
does not touch the partial-buffer counter. -/
theorem stageBytes_copies_when_mpb_zero :
    ¬ ((131072 : Int) < 2 * (65536 : Int) ∧
        c3ZeroMpbState.maxPartialBuffersCount ≠ 0) ∧
    (stageBytes 65536 c3ZeroMpbState 131072).2.1 = BufAction.copied ∧
    (stageBytes 65536 c3ZeroMpbState 131072).1.partialBuffersCount =
      c3ZeroMpbState.partialBuffersCount := by
  decide

/-- C3 (amended): the staging step copies the incoming bytes into the tail
of the staging buffer exactly when `max_partial_buffers = 0` or
`length < 2 × default_buffer_size`; otherwise it moves them by reference
and increments the partial-buffer counter (reset first when the staging
buffer was empty), compacting the buffer and resetting the counter exactly
when the counter reaches a nonnegative `max_partial_buffers`.  Either way
the staged byte count grows by the length. -/
theorem stageBytes_branch (dbs : Nat) (s : WriterS) (len : Int) :
    ((stageBytes dbs s len).2.1 = BufAction.copied ↔
      (s.maxPartialBuffersCount = 0 ∨ len < 2 * (dbs : Int))) ∧
    ((stageBytes dbs s len).2.1 = BufAction.copied →
      (stageBytes dbs s len).1.partialBuffersCount =
        s.partialBuffersCount) ∧
    ((stageBytes dbs s len).2.1 = BufAction.moved →
      ((stageBytes dbs s len).2.2 = true ↔
        0 ≤ s.maxPartialBuffersCount ∧ s.maxPartialBuffersCount ≤ stagePbc s) ∧
      (stageBytes dbs s len).1.partialBuffersCount =
        (if (stageBytes dbs s len).2.2 then 0 else stagePbc s)) ∧
    (stageBytes dbs s len).1.bufferBytes = s.bufferBytes + len.toNat := by
  unfold stageBytes
  split
  · rename_i h
    exact ⟨iff_of_true rfl h, fun _ => rfl,
      fun hm => absurd hm (by simp), rfl⟩
  · rename_i h
    split
    · rename_i h2
      exact ⟨iff_of_false (by simp) h, fun hc => absurd hc (by simp),
        fun _ => ⟨iff_of_true rfl h2, rfl⟩, rfl⟩
    · rename_i h2
      exact ⟨iff_of_false (by simp) h, fun hc => absurd hc (by simp),
        fun _ => ⟨iff_of_false (by simp) h2, rfl⟩, rfl⟩

/-- Witness for `stageBytes_branch` on a small sequential write. -/
theorem stageBytes_branch_witness :
    (stageBytes 65536 c3ZeroMpbState 100).2.1 = BufAction.copied ∧
    (stageBytes 65536 c3ZeroMpbState 100).1.bufferBytes =
      c3ZeroMpbState.bufferBytes + (100 : Int).toNat := by
  have h := stageBytes_branch 65536 c3ZeroMpbState 100
  exact ⟨h.1.mpr (by decide), h.2.2.2⟩

/-- C6 counterexample: while a close of file 7 is in progress, re-opening
the same file id and path does not fail with `TRY_AGAIN` — the
already-open identity check fires first and returns the current error code,
here 0. -/
theorem open_while_closing_same_identity :
    c6ClosingState.closing = true ∧
    openEarlyReturn c6ClosingState 7 "p" 0 3 = some 0 ∧
    (0 : Int) ≠ kErrorTryAgain := by
  decide

/-- C6 (amended): `Open` fails with `PARAMETERS` when the file id is
non-positive or the path empty; then with `SEEK` when `replica_count = 0`
and `file_size ≠ 0`; then, if the writer is already open, the identity
check takes precedence over the close/sleep check: the same id and path
return the current error code, a different identity fails with
`PARAMETERS`; only a writer that is not open fails with `TRY_AGAIN` when a
prior close or retry sleep is in progress, and otherwise proceeds. -/
theorem openEarlyReturn_cases (s : WriterS) (fid : Int) (path : String)
    (fsz rc : Int) :
    ((fid ≤ 0 ∨ path = "") →
      openEarlyReturn s fid path fsz rc = some kErrorParameters) ∧
    (0 < fid → path ≠ "" → rc = 0 → fsz ≠ 0 →
      openEarlyReturn s fid path fsz rc = some kErrorSeek) ∧
    (0 < fid → path ≠ "" → ¬ (rc = 0 ∧ fsz ≠ 0) → 0 < s.fileId →
      ((fid = s.fileId ∧ path = s.pathName →
        openEarlyReturn s fid path fsz rc = some s.errorCode) ∧
      (¬ (fid = s.fileId ∧ path = s.pathName) →
        openEarlyReturn s fid path fsz rc = some kErrorParameters))) ∧
    (0 < fid → path ≠ "" → ¬ (rc = 0 ∧ fsz ≠ 0) → s.fileId ≤ 0 →
      ((s.closing = true ∨ s.sleeping = true →
        openEarlyReturn s fid path fsz rc = some kErrorTryAgain) ∧
      (¬ (s.closing = true ∨ s.sleeping = true) →
        openEarlyReturn s fid path fsz rc = none))) := by
  unfold openEarlyReturn
  refine ⟨fun h => ?_, fun h1 h2 h3 h4 => ?_, fun h1 h2 h3 h4 => ?_,
    fun h1 h2 h3 h4 => ?_⟩
  · rw [if_pos h]
  · rw [if_neg (by push_neg; exact ⟨by omega, h2⟩), if_pos ⟨h3, h4⟩]
  · rw [if_neg (by push_neg; exact ⟨by omega, h2⟩), if_neg h3, if_pos h4]
    constructor
    · intro h5
      rw [if_pos h5]
    · intro h5
      rw [if_neg h5]
  · rw [if_neg (by push_neg; exact ⟨by omega, h2⟩), if_neg h3,
      if_neg (by omega), if_neg (by push_neg; exact fun hf => absurd hf (by omega))]
    constructor
    · intro h5
      rw [if_pos h5]
    · intro h5
      rw [if_neg h5]

/-- Witness for `openEarlyReturn_cases`: a fresh writer accepting an open. -/
theorem openEarlyReturn_cases_witness :
    openEarlyReturn {} 7 "p" 0 3 = none := by
  have h := openEarlyReturn_cases {} 7 "p" 0 3
  exact (h.2.2.2 (by decide) (by decide) (by decide) (by decide)).2
    (by decide)

/-- C4 counterexample: a Write at offset −1 (which differs from the cursor)
on an open, error-free object-store writer returns `PARAMETERS`, not
`SEEK`. -/
theorem objectstore_negative_offset_not_seek :
    ((-1 : Int) ≠ c4ObjectStoreState.offset +
      (c4ObjectStoreState.bufferBytes : Int)) ∧
    (writeF {} 5 c4ObjectStoreState 1 (-1) false (-1)).1 =
      kErrorParameters ∧
    (writeF {} 5 c4ObjectStoreState 1 (-1) false (-1)).1 ≠ kErrorSeek := by
  decide

/-- C4 (amended): for an open, error-free object-store writer
(`replica_count = 0`), any Write with positive length and nonnegative
offset differing from the append position (cursor plus staged bytes)
returns `SEEK` and mutates nothing and emits nothing. -/
theorem objectstore_nonsequential_write_seek (cfg : Cfg) (fuel : Nat)
    (s : WriterS) (len off : Int) (fl : Bool) (thr : Int)
    (hopen : 0 < s.fileId) (herr : s.errorCode = 0)
    (hclosing : s.closing = false) (hlen : 0 < len) (hoff : 0 ≤ off)
    (hrc : s.replicaCount = 0)
    (hnonseq : off ≠ s.offset + (s.bufferBytes : Int)) :
    writeF cfg fuel s len off fl thr = (kErrorSeek, s, []) := by
  unfold writeF
  rw [if_neg (not_lt.mpr hoff), if_neg (not_not_intro herr),
    if_neg (by
      push_neg
      refine ⟨by simp [hclosing], ?_⟩
      exact hopen),
    if_neg (not_le.mpr hlen), if_pos hnonseq, if_pos hrc]

/-- Witness for `objectstore_nonsequential_write_seek` at offset 10. -/
theorem objectstore_nonsequential_write_seek_witness :
    writeF {} 5 c4ObjectStoreState 1 10 false (-1) =
      (kErrorSeek, c4ObjectStoreState, []) :=
  objectstore_nonsequential_write_seek {} 5 c4ObjectStoreState 1 10 false
    (-1) (by decide) (by decide) (by decide) (by decide) (by decide)
    (by decide) (by decide)

/-- C7 counterexample: on a closing writer, `Flush()` proceeds (returns 0,
emits the completion callbacks of the finished close) while a zero-byte
Write with `flush = true` fails with `PARAMETERS` and emits nothing — the
two are not equivalent. -/
theorem flush_vs_zero_write_closing :
    (flushF {} 5 c7ClosingState).1 = 0 ∧
    (writeF {} 5 c7ClosingState 0 0 true (-1)).1 = kErrorParameters ∧
    (flushF {} 5 c7ClosingState).1 ≠
      (writeF {} 5 c7ClosingState 0 0 true (-1)).1 ∧
    (writeF {} 5 c7ClosingState 0 0 true (-1)).2.2 = [] ∧
    (flushF {} 5 c7ClosingState).2.2 =
      [Event.done 0 0 0, Event.done 0 0 0] := by
  decide

/-- The value `Write` hands back from the staging path is either the full
requested length or negative. -/
theorem writeStage_ret_pos (cfg : Cfg) (fuel : Nat) (s : WriterS)
    (len : Int) (fl : Bool) (thr : Int) (ev : List Event)
    (hlen : 0 < len) :
    0 ≤ (writeStage cfg fuel s len fl thr ev).1 →
    (writeStage cfg fuel s len fl thr ev).1 = len := by
  unfold writeStage
  dsimp only
  intro h
  omega

/-- C10: all-or-nothing acceptance.  Whenever `Write` is called with a
positive length and returns a nonnegative value, that value is exactly the
requested length (re-entrant self-destruction of the writer from inside a
completion callback is outside this model: completions are events). -/
theorem write_all_or_nothing (cfg : Cfg) (fuel : Nat) (s : WriterS)
    (len off : Int) (fl : Bool) (thr : Int) (hlen : 0 < len) :
    0 ≤ (writeF cfg fuel s len off fl thr).1 →
    (writeF cfg fuel s len off fl thr).1 = len := by
  unfold writeF
  split
  · intro h
    rw [kErrorParameters] at h
    exact absurd h (by norm_num)
  · split
    · rename_i herr
      intro h
      dsimp only at h
      omega
    · split
      · intro h
        rw [kErrorParameters] at h
        exact absurd h (by norm_num)
      · split
        · rename_i hzero
          exact absurd hzero (not_le.mpr hlen)
        · split
          · split
            · intro h
              rw [kErrorSeek] at h
              exact absurd h (by norm_num)
            · dsimp only
              split
              · rename_i hneg
                intro h
                dsimp only at h
                omega
              · split
                · rename_i hge hneg
                  intro h
                  dsimp only at h
                  omega
                · exact writeStage_ret_pos cfg fuel _ len fl thr _ hlen
          · exact writeStage_ret_pos cfg fuel s len fl thr [] hlen

/-- Witness for `write_all_or_nothing`: a hundred-byte write on a fresh
replicated writer returns exactly 100. -/
theorem write_all_or_nothing_witness :
    0 < (100 : Int) ∧ (writeF {} 8 c10ReplState 100 0 false (-1)).1 = 100 :=
  ⟨by decide, write_all_or_nothing {} 8 c10ReplState 100 0 false (-1)
    (by decide) (by decide)⟩

/-- `ReportCompletion` on a writer with no chunk writers, not closing, and
a nonnegative pending count, with no reporting writer and zero offset and
size, only emits the `Done` callback. -/
theorem rcF_trivial (cfg : Cfg) (fuel : Nat) (s : WriterS)
    (hwr : s.writers = []) (hclosing : s.closing = false)
    (hpend : 0 ≤ s.pendingCount) :
    rcF cfg (fuel + 1) s none 0 0 =
      (s, [Event.done s.errorCode 0 0], true) := by
  have hts : ∀ s2 : WriterS, s2.writers = [] →
      ttciF cfg fuel s2 none = (s2, [], true) := by
    intro s2 h
    cases fuel with
    | zero => rfl
    | succ n =>
      unfold ttciF
      rw [h]
      rfl
  simp only [rcF, wAssert, hpend, and_self, if_true, sub_zero]
  rw [hts]
  · simp only [hclosing]
    simp
    rw [← hclosing]
  · simp [hwr]

/-- C7 (amended): on an open, error-free, non-closing writer with no chunk
writers and nonnegative pending count, a zero-length Write with
`flush = true` at offset 0 reaches the same state as `Flush()`, emits the
same transport events after one extra completion callback, and its return
value is the flush return value up to sign. -/
theorem flush_equiv_zero_write (cfg : Cfg) (fuel : Nat) (s : WriterS)
    (thr : Int) (hopen : wIsOpen s) (herr : s.errorCode = 0)
    (hclosing : s.closing = false) (hwr : s.writers = [])
    (hpend : 0 ≤ s.pendingCount) :
    (writeF cfg (fuel + 1) s 0 0 true thr).2.1 =
      (flushF cfg (fuel + 1) s).2.1 ∧
    (writeF cfg (fuel + 1) s 0 0 true thr).2.2 =
      Event.done s.errorCode 0 0 :: (flushF cfg (fuel + 1) s).2.2 ∧
    ((writeF cfg (fuel + 1) s 0 0 true thr).1 =
        (flushF cfg (fuel + 1) s).1 ∨
      (writeF cfg (fuel + 1) s 0 0 true thr).1 =
        -(flushF cfg (fuel + 1) s).1) := by
  have hw : writeF cfg (fuel + 1) s 0 0 true thr =
      ((startWriteF cfg (fuel + 1) s true).1,
        (startWriteF cfg (fuel + 1) s true).2.1,
        Event.done s.errorCode 0 0 ::
          (startWriteF cfg (fuel + 1) s true).2.2) := by
    unfold writeF
    rw [if_neg (by norm_num), if_neg (not_not_intro herr),
      if_neg (by
        push_neg
        refine ⟨by simp [hclosing], ?_⟩
        exact hopen),
      if_pos (le_refl (0 : Int))]
    dsimp only
    rw [rcF_trivial cfg fuel s hwr hclosing hpend]
    dsimp only
    rw [if_pos ⟨rfl, rfl⟩]
    rfl
  rw [hw]
  unfold flushF
  dsimp only
  refine ⟨rfl, rfl, ?_⟩
  split
  · exact Or.inl rfl
  · exact Or.inr (neg_neg _).symm

/-- Witness for `flush_equiv_zero_write` on a fresh open replicated
writer. -/
theorem flush_equiv_zero_write_witness :
    wIsOpen c7OpenState ∧
    (writeF {} 8 c7OpenState 0 0 true (-1)).2.2 =
      Event.done c7OpenState.errorCode 0 0 ::
        (flushF {} 8 c7OpenState).2.2 :=
  ⟨by decide, (flush_equiv_zero_write {} 7 c7OpenState (-1) (by decide)
    (by decide) (by decide) (by decide) (by decide)).2.1⟩

/-- C8: the zero-length-Write completion call swaps its arguments.  After
100 bytes are accepted and queued (none acknowledged by any chunk server),
a zero-length Write at offset 64 calls `ReportCompletion(0, 0, 64)` —
offset 0, size 64 — so the pending byte count drops from 100 to 36 with no
write completed, the host sees `Done(status 0, offset 0, size 64)`, and no
assertion fires on the way. -/
theorem zero_length_write_corrupts_pending_count :
    c8AfterData.1 = 100 ∧
    c8AfterData.2.1.pendingCount = 100 ∧
    c8AfterZero.1 = 0 ∧
    c8AfterZero.2.1.pendingCount = 36 ∧
    c8AfterZero.2.1.assertOk = true ∧
    c8AfterZero.2.2 = [Event.done 0 0 64] := by
  decide

end KFSWriter

